import Mathlib

/-!
Shallow embedding of the nomad-lang compiler front end and code generator,
used to check the natural-language specification against the code.

The embedding follows the source files under src/:
  src/parser/tokens.rs, src/parser/expressions.rs, src/parser/statements.rs,
  src/codegen/statements.rs, src/codegen/builtin.rs, src/compileerror.rs.

The repository snapshot mixes several commits: a few small helpers used by
the files above (the token queue in tokenqueue.rs, the span type in span.rs,
some operator enum variants, gen_expression in codegen/expressions.rs) are
not present in the snapshot.  Those are modelled from the specification and
are marked as such in their doc comments.  Everything else is translated
directly from the source.
-/

set_option maxRecDepth 10000

namespace Nomad

/-- Source position.  The spec (§3.1) describes a position as line/column;
print_message in compileerror.rs reads fields named line and offset. -/
structure Pos where
  line : Nat
  offset : Nat
deriving DecidableEq, Repr

/-- Modelled from the spec: a zero position (Pos::new(0,0) / Pos::zero()). -/
def Pos.zero : Pos := ⟨0, 0⟩

/-- Order on positions: by line, then by column.  Used only by Span.merge. -/
def Pos.le (a b : Pos) : Bool :=
  a.line < b.line || (a.line == b.line && a.offset ≤ b.offset)

/-- Half-open-ish span of two positions, as every token and AST node carries.
The span type itself lives in span.rs which is absent from the snapshot;
its fields (start, end) are dictated by every use site. -/
structure Span where
  start : Pos
  stop : Pos
deriving DecidableEq, Repr

/-- Span::new(start, end). -/
def Span.new (a b : Pos) : Span := ⟨a, b⟩

/-- Span::zero(). -/
def Span.zero : Span := ⟨Pos.zero, Pos.zero⟩

/-- Modelled from the spec (§3.1): merge yields the smallest span containing
both spans. -/
def Span.merge (a b : Span) : Span :=
  ⟨if Pos.le a.start b.start then a.start else b.start,
   if Pos.le a.stop b.stop then b.stop else a.stop⟩

/-- Operators, from src/parser/tokens.rs.  The snapshot's tokens.rs predates
src/parser/expressions.rs and src/parser/statements.rs, which also use
Increment, Decrement, Assign, AddAssign, SubAssign, Dot and Arrow; those
variants are modelled from the spec's operator set (§4.1:
`+ - * / % == != < <= > >= && || ! = -> => . :: ++ --` plus the compound
assignment forms). -/
inductive Operator where
  | Add | Sub | Mul | Div | Mod
  | LessThan | GreaterThan | LessThanEquals | GreaterThanEquals
  | Equals | NotEquals
  | Not | And | Or
  | Increment | Decrement
  | Assign | AddAssign | SubAssign
  | Dot | Arrow
deriving DecidableEq, Repr

/-- TOP_PRECEDENCE from src/parser/tokens.rs. -/
def TOP_PRECEDENCE : Nat := 2000

/-- Operator::precedence from src/parser/tokens.rs.  The variants below
`Or` are absent from the snapshot's tokens.rs; for them the value is
modelled from the spec: `++`/`--`/`.` bind at primary level (top), the
assignment operators are lower than any binary operator (§4.3.2), and `->`
never occurs inside an expression. -/
def Operator.precedence : Operator → Nat
  | .Not => TOP_PRECEDENCE
  | .Mul | .Div | .Mod => TOP_PRECEDENCE - 100
  | .Add | .Sub => TOP_PRECEDENCE - 200
  | .LessThan | .GreaterThan | .LessThanEquals
  | .GreaterThanEquals | .Equals | .NotEquals => TOP_PRECEDENCE - 300
  | .And => TOP_PRECEDENCE - 400
  | .Or => TOP_PRECEDENCE - 500
  | .Increment | .Decrement | .Dot => TOP_PRECEDENCE
  | .Assign | .AddAssign | .SubAssign | .Arrow => 0

/-- Operator::is_binary_operator from src/parser/tokens.rs: everything but
`!` counts as a binary operator (catch-all arm in the source).  The
assignment and postfix operators are intercepted before this test in
parse_expression, so the catch-all is kept as written. -/
def Operator.is_binary_operator : Operator → Bool
  | .Not => false
  | _ => true

/-- Modelled from the spec: Operator::is_assignment (used by
parse_expression; its definition is in the missing newer tokens.rs).
The spec (§4.3.2) groups `=`, `+=`, `-=` as assignment operators. -/
def Operator.is_assignment : Operator → Bool
  | .Assign | .AddAssign | .SubAssign => true
  | _ => false

/-- Token kinds, the union of the snapshot's tokens.rs enum and the kinds
used by parser/statements.rs (Indent and the keyword tokens, which belong
to the same commit as statements.rs; spec §3.2 lists the keywords). -/
inductive TokenKind where
  | Identifier (name : String)
  | Number (lexeme : String)
  | StringLiteral (s : String)
  | Operator (op : Operator)
  | Colon | DoubleColon | SemiColon | Comma
  | OpenParen | CloseParen | OpenCurly | CloseCurly
  | OpenBracket | CloseBracket
  | FatArrow | Lambda | Dollar
  | Indent (level : Nat)
  | Import | Match
  | Var | Const | Func | Pub | Struct | Union | Extern
  | If | Else | While | Return
  | EOF
deriving DecidableEq, Repr

/-- Token = kind × span (src/parser/tokens.rs). -/
structure Token where
  kind : TokenKind
  span : Span
deriving DecidableEq, Repr

/-- Token::new. -/
def Token.new (kind : TokenKind) (span : Span) : Token := ⟨kind, span⟩

end Nomad

namespace Nomad

/- Expression AST of the commit parser/expressions.rs belongs to: a member
is a plain variable, a call, or a nested member access; MAcc mirrors the
MemberAccess struct { name, member, span }. -/
mutual

inductive Expression where
  | IntLiteral (span : Span) (value : Nat)
  | FloatLiteral (span : Span) (text : String)
  | StringLiteral (span : Span) (text : String)
  | Enclosed (span : Span) (inner : Expression)
  | UnaryOp (op : Operator) (expr : Expression) (span : Span)
  | PostfixUnaryOp (op : Operator) (expr : Expression) (span : Span)
  | BinaryOp (op : Operator) (left : Expression) (right : Expression) (span : Span)
  | Assignment (op : Operator) (target : Expression) (value : Expression) (span : Span)
  | Call (name : String) (args : List Expression) (span : Span)
  | NameRef (name : String) (span : Span)
  | ObjectConstruction (name : String) (params : List Expression) (span : Span)
  | MemberAccess (ma : MAcc)

inductive MAcc where
  | mk (name : String) (member : Member) (span : Span)

inductive Member where
  | Var (name : String) (span : Span)
  | MCall (name : String) (args : List Expression) (span : Span)
  | Nested (ma : MAcc)

end

/-- unary_op helper from ast/operations.rs. -/
def unary_op (op : Operator) (e : Expression) (span : Span) : Expression :=
  .UnaryOp op e span

/-- pf_unary_op helper (postfix unary operation, used by parse_expression). -/
def pf_unary_op (op : Operator) (e : Expression) (span : Span) : Expression :=
  .PostfixUnaryOp op e span

/-- bin_op helper from ast/operations.rs. -/
def bin_op (op : Operator) (l r : Expression) (span : Span) : Expression :=
  .BinaryOp op l r span

/-- bin_op2 helper from ast/operations.rs (same node, boxed argument in
the source; boxing is immaterial here). -/
def bin_op2 (op : Operator) (l r : Expression) (span : Span) : Expression :=
  .BinaryOp op l r span

/-- assignment helper (ast). -/
def assignment (op : Operator) (target value : Expression) (span : Span) : Expression :=
  .Assignment op target value span

/-- name_ref helper (ast). -/
def name_ref (name : String) (span : Span) : Expression :=
  .NameRef name span

/-- object_construction helper (ast). -/
def object_construction (name : String) (params : List Expression) (span : Span) : Expression :=
  .ObjectConstruction name params span

/-- member_access helper (ast). -/
def member_access (name : String) (member : Member) (span : Span) : Expression :=
  .MemberAccess (.mk name member span)

/-- Expression::span from ast/expression.rs. -/
def Expression.span : Expression → Span
  | .IntLiteral s _ => s
  | .FloatLiteral s _ => s
  | .StringLiteral s _ => s
  | .Enclosed s _ => s
  | .UnaryOp _ _ s => s
  | .PostfixUnaryOp _ _ s => s
  | .BinaryOp _ _ _ s => s
  | .Assignment _ _ _ s => s
  | .Call _ _ s => s
  | .NameRef _ s => s
  | .ObjectConstruction _ _ s => s
  | .MemberAccess (.mk _ _ s) => s

/-- Expression::precedence from ast/expression.rs: the precedence of the
operator for a binary operation, 0 for everything else. -/
def Expression.precedence : Expression → Nat
  | .BinaryOp op _ _ _ => op.precedence
  | _ => 0

/-- Error taxonomy of the commit the parser and old codegen belong to
(ErrorType in compileerror.rs of that commit; the snapshot's
compileerror.rs is newer).  The variants are exactly the ones used by the
embedded source files, and they are the ones the spec lists in §7. -/
inductive ErrorType where
  | UnexpectedEOF
  | UnexpectedToken (tok : Token)
  | InvalidInteger
  | InvalidFloatingPoint
  | InvalidUnaryOperator (op : Operator)
  | SelfNotAllowed
  | TypeError (msg : String)
  | RedefinitionOfVariable (name : String)
  | RedefinitionOfFunction (name : String)
  | RedefinitionOfStruct (name : String)
  | CodegenError (msg : String)
deriving DecidableEq, Repr

/-- CompileError: an error type together with the position it happened at. -/
structure CompileError where
  pos : Pos
  error : ErrorType
deriving DecidableEq, Repr

/-- err helper: build the Err variant, as in the source. -/
def err {α : Type} (pos : Pos) (e : ErrorType) : Except CompileError α :=
  .error ⟨pos, e⟩

end Nomad

namespace Nomad

/-- One step of decimal accumulation, digit characters to values. -/
def digitVal (c : Char) : Nat := c.toNat - 48

/-- Decimal value of a list of digit characters. -/
def digitsToNat (cs : List Char) : Nat :=
  cs.foldl (fun acc c => acc * 10 + digitVal c) 0

/-- Rust u64::from_str, as parse_number invokes it (`num.parse::<u64>()`):
an optional leading `+`, then one or more decimal digits, value at most
u64::MAX; anything else is an error.  Returns none on failure. -/
def parse_u64 (s : String) : Option Nat :=
  let cs := s.data
  let ds := match cs with
    | '+' :: rest => rest
    | _ => cs
  if ds.isEmpty then none
  else if ds.all Char.isDigit then
    let v := digitsToNat ds
    if v < 2 ^ 64 then some v else none
  else none

/-- Digit run: one or more decimal digits. -/
def isDigitRun (cs : List Char) : Bool :=
  !cs.isEmpty && cs.all Char.isDigit

/-- Exponent part of Rust's float grammar: (e|E) sign? digits. -/
def floatExpOk (cs : List Char) : Bool :=
  match cs with
  | e :: rest =>
    (e == 'e' || e == 'E') &&
      (match rest with
       | s :: ds => if s == '+' || s == '-' then isDigitRun ds
                    else isDigitRun rest
       | [] => false)
  | [] => false

/-- Mantissa ('.'-separated digit runs) followed by an optional exponent:
digits ['.' digits?] exp? | '.' digits exp? . -/
def floatNumberOk (cs : List Char) : Bool :=
  let rec takeDigits : List Char → List Char
    | c :: rest => if c.isDigit then takeDigits rest else c :: rest
    | [] => []
  let afterInt := takeDigits cs
  let intLen := cs.length - afterInt.length
  match afterInt with
  | '.' :: rest =>
    let afterFrac := takeDigits rest
    let fracLen := rest.length - afterFrac.length
    if intLen == 0 && fracLen == 0 then false
    else afterFrac.isEmpty || floatExpOk afterFrac
  | [] => intLen > 0
  | rest => intLen > 0 && floatExpOk rest

/-- Rust f64::from_str, as parse_number invokes it (`num.parse::<f64>()`),
success only (the parsed value is discarded by parse_number): an optional
sign, then `inf`, `infinity`, `nan` (case-insensitive) or a decimal number
with optional fraction and exponent. -/
def parse_f64_ok (s : String) : Bool :=
  let cs := s.data
  let body := match cs with
    | c :: rest => if c == '+' || c == '-' then rest else cs
    | [] => cs
  let lower := body.map Char.toLower
  lower == "inf".data || lower == "infinity".data || lower == "nan".data ||
    floatNumberOk body

/-- parse_number from src/parser/expressions.rs: a lexeme containing `.` or
(lowercase) `e` is parsed as a float and kept as its text; otherwise it is
parsed as a u64 integer. -/
def parse_number (num : String) (span : Span) : Except CompileError Expression :=
  if num.data.contains '.' || num.data.contains 'e' then
    if parse_f64_ok num then .ok (.FloatLiteral span num)
    else err span.start .InvalidFloatingPoint
  else
    match parse_u64 num with
    | some i => .ok (.IntLiteral span i)
    | none => err span.start .InvalidInteger

end Nomad

namespace Nomad

/-- Modelled from the spec (§4.2): the token queue is a rewindable FIFO
buffer over the token stream (tokenqueue.rs is absent from the snapshot).
pos() is the position just past the last consumed token, as the spans in
the repository's parser tests exhibit. -/
structure TokenQueue where
  tokens : List Token
  lastPos : Pos
deriving DecidableEq, Repr

/-- peek: look at the next token without consuming. -/
def TokenQueue.peek (tq : TokenQueue) : Option Token := tq.tokens.head?

/-- pos: position just past the last consumed token. -/
def TokenQueue.pos (tq : TokenQueue) : Pos := tq.lastPos

/-- pop: consume and return the next token; per the spec, EOF is never
consumed. -/
def TokenQueue.pop (tq : TokenQueue) : Except CompileError (Token × TokenQueue) :=
  match tq.tokens with
  | [] => err tq.lastPos .UnexpectedEOF
  | t :: ts =>
    if t.kind == .EOF then .ok (t, tq)
    else .ok (t, ⟨ts, t.span.stop⟩)

/-- push_front: restore one token. -/
def TokenQueue.push_front (tq : TokenQueue) (tok : Token) : TokenQueue :=
  ⟨tok :: tq.tokens, tq.lastPos⟩

/-- expect(kind): consume and return the next token, failing with the
offending token on mismatch. -/
def TokenQueue.expect (tq : TokenQueue) (kind : TokenKind) :
    Except CompileError (Token × TokenQueue) :=
  match tq.pop with
  | .error e => .error e
  | .ok (tok, tq2) =>
    if tok.kind == kind then .ok (tok, tq2)
    else err tok.span.start (.UnexpectedToken tok)

/-- expect_identifier: consume an identifier, returning its name and start
position. -/
def TokenQueue.expect_identifier (tq : TokenQueue) :
    Except CompileError ((String × Pos) × TokenQueue) :=
  match tq.pop with
  | .error e => .error e
  | .ok (tok, tq2) =>
    match tok.kind with
    | .Identifier name => .ok ((name, tok.span.start), tq2)
    | _ => err tok.span.start (.UnexpectedToken tok)

/-- expect_string: consume a string literal, returning its text and end
position. -/
def TokenQueue.expect_string (tq : TokenQueue) :
    Except CompileError ((String × Pos) × TokenQueue) :=
  match tq.pop with
  | .error e => .error e
  | .ok (tok, tq2) =>
    match tok.kind with
    | .StringLiteral s => .ok ((s, tok.span.stop), tq2)
    | _ => err tok.span.start (.UnexpectedToken tok)

/-- expect_operator: consume an operator token and return the operator. -/
def TokenQueue.expect_operator (tq : TokenQueue) :
    Except CompileError (Operator × TokenQueue) :=
  match tq.pop with
  | .error e => .error e
  | .ok (tok, tq2) =>
    match tok.kind with
    | .Operator op => .ok (op, tq2)
    | _ => err tok.span.start (.UnexpectedToken tok)

/-- is_next(kind). -/
def TokenQueue.is_next (tq : TokenQueue) (kind : TokenKind) : Bool :=
  match tq.peek with
  | some t => t.kind == kind
  | none => false

/-- is_next_at(idx, kind). -/
def TokenQueue.is_next_at (tq : TokenQueue) (idx : Nat) (kind : TokenKind) : Bool :=
  match tq.tokens.get? idx with
  | some t => t.kind == kind
  | none => false

/-- is_next_identifier. -/
def TokenQueue.is_next_identifier (tq : TokenQueue) : Bool :=
  match tq.peek with
  | some ⟨.Identifier _, _⟩ => true
  | _ => false

/-- pop_if(predicate): conditionally consume. -/
def TokenQueue.pop_if (tq : TokenQueue) (pred : Token → Bool) :
    Except CompileError (Option Token × TokenQueue) :=
  match tq.peek with
  | some t =>
    if pred t then
      match tq.pop with
      | .error e => .error e
      | .ok (tok, tq2) => .ok (some tok, tq2)
    else .ok (none, tq)
  | none => .ok (none, tq)

/-- next_indent: indentation level of the next token when it is an indent
token. -/
def TokenQueue.next_indent (tq : TokenQueue) : Option Nat :=
  match tq.peek with
  | some ⟨.Indent lvl, _⟩ => some lvl
  | _ => none

/-- expect_indent: consume one indent token and return its level. -/
def TokenQueue.expect_indent (tq : TokenQueue) :
    Except CompileError (Nat × TokenQueue) :=
  match tq.pop with
  | .error e => .error e
  | .ok (tok, tq2) =>
    match tok.kind with
    | .Indent lvl => .ok (lvl, tq2)
    | _ => err tok.span.start (.UnexpectedToken tok)

/-- Parser results: none means the recursion fuel ran out (the Rust
functions recurse without bound; every claim is settled at a fuel large
enough for its inputs). -/
abbrev PR (α : Type) := Option (Except CompileError (α × TokenQueue))

/-- Successful parser result. -/
def pok {α : Type} (a : α) (tq : TokenQueue) : PR α := some (.ok (a, tq))

/-- Failing parser result. -/
def perr {α : Type} (pos : Pos) (e : ErrorType) : PR α := some (.error ⟨pos, e⟩)

/-- Sequencing of a parser result. -/
def pbind {α β : Type} (x : PR α) (f : α → TokenQueue → PR β) : PR β :=
  match x with
  | none => none
  | some (.error e) => some (.error e)
  | some (.ok (a, tq)) => f a tq

/-- Sequencing of a token-queue operation into a parser. -/
def ebind {α β : Type} (x : Except CompileError (α × TokenQueue))
    (f : α → TokenQueue → PR β) : PR β :=
  match x with
  | .error e => some (.error e)
  | .ok (a, tq) => f a tq

/-- is_end_of_expression from src/parser/expressions.rs. -/
def is_end_of_expression (tok : Token) : Bool :=
  match tok.kind with
  | .Operator _ | .Number _ | .Identifier _ | .StringLiteral _ | .OpenParen => false
  | _ => true

/-- Peeked precedence in parse_binary_op_rhs: the precedence of the next
token's operator, 0 otherwise (src/parser/expressions.rs lines 37-43). -/
def peeked_precedence (tq : TokenQueue) : Nat :=
  (tq.peek.map fun tok =>
    match tok.kind with
    | .Operator op => op.precedence
    | _ => 0).getD 0

/-- Combination step of parse_binary_op_rhs (the `match rhs` block,
src/parser/expressions.rs lines 51-70): when the parsed right-hand side is
itself a binary operation whose operator's precedence is at most the
current one, the tree is rotated to keep left associativity. -/
def combine_rhs (prec : Nat) (op : Operator) (lhs rhs : Expression) : Expression :=
  match rhs with
  | .BinaryOp bop_op bop_left bop_right bop_span =>
    if bop_op.precedence ≤ prec then
      let span := Span.merge lhs.span bop_left.span
      let e := bin_op2 op lhs bop_left span
      let span2 := Span.merge span bop_right.span
      bin_op2 bop_op e bop_right span2
    else
      let lhs_span := Span.merge bop_span lhs.span
      bin_op op lhs (.BinaryOp bop_op bop_left bop_right bop_span) lhs_span
  | _ => bin_op op lhs rhs (Span.merge lhs.span rhs.span)

end Nomad

namespace Nomad

mutual

/-- parse_unary_expression from src/parser/expressions.rs: only `!`, `-`,
`++` and `--` are valid unary operators. -/
def parse_unary_expression (fuel : Nat) (tq : TokenQueue) (indent_level : Nat)
    (op : Operator) (op_pos : Pos) : PR Expression :=
  match fuel with
  | 0 => none
  | fuel + 1 =>
    if op == .Not || op == .Sub || op == .Increment || op == .Decrement then
      pbind (parse_expression fuel tq indent_level) fun se tq =>
        pok (unary_op op se (Span.new op_pos tq.pos)) tq
    else
      perr op_pos (.InvalidUnaryOperator op)
termination_by structural fuel

/-- parse_binary_op_rhs from src/parser/expressions.rs (the precedence
climbing loop). -/
def parse_binary_op_rhs (fuel : Nat) (tq : TokenQueue) (indent_level : Nat)
    (lhs : Expression) : PR Expression :=
  match fuel with
  | 0 => none
  | fuel + 1 =>
    if (tq.peek.map is_end_of_expression).getD false then
      pok lhs tq
    else
      let prec := peeked_precedence tq
      if prec < lhs.precedence then
        pok lhs tq
      else
        ebind tq.expect_operator fun op tq =>
          pbind (parse_expression fuel tq indent_level) fun rhs tq =>
            parse_binary_op_rhs fuel tq indent_level (combine_rhs prec op lhs rhs)
termination_by structural fuel

/-- Argument loop of parse_function_call (the `while !tq.is_next(CloseParen)`
loop of src/parser/expressions.rs lines 79-87). -/
def parse_call_args (fuel : Nat) (tq : TokenQueue) (indent_level : Nat)
    (args : List Expression) : PR (List Expression) :=
  match fuel with
  | 0 => none
  | fuel + 1 =>
    if tq.is_next .CloseParen then
      pok args tq
    else
      pbind (parse_expression fuel tq indent_level) fun e tq =>
        parse_call_args_after fuel tq indent_level (args ++ [e])
termination_by structural fuel

/-- Tail of one argument-loop iteration: consume a separating comma when
present, then continue the loop. -/
def parse_call_args_after (fuel : Nat) (tq : TokenQueue) (indent_level : Nat)
    (args : List Expression) : PR (List Expression) :=
  match fuel with
  | 0 => none
  | fuel + 1 =>
    if tq.is_next .Comma then
      ebind tq.pop fun _ tq => parse_call_args fuel tq indent_level args
    else
      parse_call_args fuel tq indent_level args
termination_by structural fuel

/-- parse_function_call from src/parser/expressions.rs: returns the call's
name, arguments, and span. -/
def parse_function_call (fuel : Nat) (tq : TokenQueue) (indent_level : Nat)
    (name : String) (pos : Pos) : PR (String × List Expression × Span) :=
  match fuel with
  | 0 => none
  | fuel + 1 =>
    ebind (tq.expect .OpenParen) fun _ tq =>
      pbind (parse_call_args fuel tq indent_level []) fun args tq =>
        ebind tq.pop fun _ tq =>
          pok (name, args, Span.new pos tq.pos) tq
termination_by structural fuel

/-- parse_assignment from src/parser/expressions.rs. -/
def parse_assignment (fuel : Nat) (tq : TokenQueue) (indent_level : Nat)
    (lhs : Expression) (op : Operator) (pos : Pos) : PR Expression :=
  match fuel with
  | 0 => none
  | fuel + 1 =>
    ebind tq.pop fun _ tq =>
      pbind (parse_expression fuel tq indent_level) fun e tq =>
        pok (assignment op lhs e (Span.new pos tq.pos)) tq
termination_by structural fuel

/-- Parameter loop of parse_object_construction (the
`while !tq.is_next(CloseCurly)` loop of src/parser/expressions.rs
lines 121-127). -/
def parse_obj_params (fuel : Nat) (tq : TokenQueue) (indent_level : Nat)
    (params : List Expression) : PR (List Expression) :=
  match fuel with
  | 0 => none
  | fuel + 1 =>
    if tq.is_next .CloseCurly then
      pok params tq
    else
      pbind (parse_expression fuel tq indent_level) fun e tq =>
        parse_obj_params_after fuel tq indent_level (params ++ [e])
termination_by structural fuel

/-- Tail of one parameter-loop iteration of parse_object_construction. -/
def parse_obj_params_after (fuel : Nat) (tq : TokenQueue) (indent_level : Nat)
    (params : List Expression) : PR (List Expression) :=
  match fuel with
  | 0 => none
  | fuel + 1 =>
    if tq.is_next .Comma then
      ebind tq.pop fun _ tq => parse_obj_params fuel tq indent_level params
    else
      parse_obj_params fuel tq indent_level params
termination_by structural fuel

/-- parse_object_construction from src/parser/expressions.rs. -/
def parse_object_construction (fuel : Nat) (tq : TokenQueue) (indent_level : Nat)
    (name : String) (pos : Pos) : PR Expression :=
  match fuel with
  | 0 => none
  | fuel + 1 =>
    ebind (tq.expect .OpenCurly) fun _ tq =>
      pbind (parse_obj_params fuel tq indent_level []) fun params tq =>
        ebind (tq.expect .CloseCurly) fun _ tq =>
          pok (object_construction name params (Span.new pos tq.pos)) tq
termination_by structural fuel

/-- parse_member_access from src/parser/expressions.rs. -/
def parse_member_access (fuel : Nat) (tq : TokenQueue) (indent_level : Nat)
    (name : String) (pos : Pos) : PR MAcc :=
  match fuel with
  | 0 => none
  | fuel + 1 =>
    ebind (tq.expect (.Operator .Dot)) fun _ tq =>
      ebind tq.expect_identifier fun np tq =>
        let next_name := np.1
        let next_name_pos := np.2
        if tq.is_next .OpenParen then
          pbind (parse_function_call fuel tq indent_level next_name next_name_pos)
            fun c tq =>
              pok (MAcc.mk name (.MCall c.1 c.2.1 c.2.2) (Span.new pos tq.pos)) tq
        else if tq.is_next (.Operator .Dot) then
          pbind (parse_member_access fuel tq indent_level next_name next_name_pos)
            fun ma tq =>
              pok (MAcc.mk name (.Nested ma) (Span.new pos tq.pos)) tq
        else
          pok (MAcc.mk name (.Var next_name (Span.new next_name_pos tq.pos))
            (Span.new pos tq.pos)) tq
termination_by structural fuel

/-- parse_primary_expression from src/parser/expressions.rs.  The identifier
case dispatches on the next token: `(` call, `{` object construction,
`.` member access chain, postfix `++`/`--` rewritten to `x += 1`/`x -= 1`,
otherwise a bare name reference. -/
def parse_primary_expression (fuel : Nat) (tq : TokenQueue) (indent_level : Nat)
    (tok : Token) : PR Expression :=
  match fuel with
  | 0 => none
  | fuel + 1 =>
    match tok.kind with
    | .OpenParen =>
      pbind (parse_expression fuel tq indent_level) fun e tq =>
        ebind (tq.expect .CloseParen) fun _ tq =>
          pok (.Enclosed (Span.new tok.span.start tq.pos) e) tq
    | .Identifier id =>
      match tq.peek with
      | some next =>
        match next.kind with
        | .OpenParen =>
          pbind (parse_function_call fuel tq indent_level id tok.span.start)
            fun c tq => pok (.Call c.1 c.2.1 c.2.2) tq
        | .OpenCurly =>
          parse_object_construction fuel tq indent_level id tok.span.start
        | .Operator op =>
          if op == .Dot then
            pbind (parse_member_access fuel tq indent_level id tok.span.start)
              fun ma tq => pok (.MemberAccess ma) tq
          else if op == .Increment || op == .Decrement then
            ebind tq.pop fun _ tq =>
              let new_op := if op == .Increment then Operator.AddAssign
                            else Operator.SubAssign
              pok (assignment new_op (name_ref id tok.span)
                (.IntLiteral tok.span 1) tok.span) tq
          else
            pok (name_ref id tok.span) tq
        | _ => pok (name_ref id tok.span) tq
      | none => pok (name_ref id tok.span) tq
    | .StringLiteral s => pok (.StringLiteral tok.span s) tq
    | .Number n =>
      match parse_number n tok.span with
      | .ok e => pok e tq
      | .error e => some (.error e)
    | .Operator op => parse_unary_expression fuel tq indent_level op tok.span.start
    | _ => perr tok.span.start (.UnexpectedToken tok)
termination_by structural fuel

/-- Loop body of parse_expression (the `while let Some(tok) = tq.pop_if(..)`
loop of src/parser/expressions.rs lines 207-234, with the running `lhs`
option threaded through). -/
def parse_expression_loop (fuel : Nat) (tq : TokenQueue) (indent_level : Nat)
    (lhs : Option Expression) : PR Expression :=
  match fuel with
  | 0 => none
  | fuel + 1 =>
    ebind (tq.pop_if fun tok => !is_end_of_expression tok) fun otok tq =>
      match otok with
      | none =>
        match lhs with
        | some e => pok e tq
        | none => perr tq.pos .UnexpectedEOF
      | some tok =>
        let tok_pos := tok.span.start
        pbind (parse_primary_expression fuel tq indent_level tok) fun e tq =>
          match tq.peek with
          | none => perr tq.pos .UnexpectedEOF
          | some ptok =>
            if is_end_of_expression ptok then
              pok e tq
            else
              ebind tq.pop fun next tq =>
                match next.kind with
                | .Operator op =>
                  if op == .Increment || op == .Decrement then
                    parse_expression_loop fuel tq indent_level
                      (some (pf_unary_op op e (Span.new tok_pos next.span.stop)))
                  else if op.is_assignment then
                    let tq := tq.push_front next
                    pbind (parse_assignment fuel tq indent_level e op tok_pos)
                      fun r tq => parse_expression_loop fuel tq indent_level (some r)
                  else if op.is_binary_operator then
                    let tq := tq.push_front next
                    pbind (parse_binary_op_rhs fuel tq indent_level e)
                      fun r tq => parse_expression_loop fuel tq indent_level (some r)
                  else
                    perr tq.pos (.UnexpectedToken next)
                | _ => perr tq.pos (.UnexpectedToken next)
termination_by structural fuel

/-- parse_expression from src/parser/expressions.rs. -/
def parse_expression (fuel : Nat) (tq : TokenQueue) (indent_level : Nat) :
    PR Expression :=
  match fuel with
  | 0 => none
  | fuel + 1 => parse_expression_loop fuel tq indent_level none

termination_by structural fuel
end

end Nomad

namespace Nomad

/-- Types as the parser and old code generator know them (ast/types.rs of
the parser's commit): parse_type produces Primitive(pos, name), methods
receive Struct/Union self types, functions default to Void, and variables
without an annotation carry Unknown until inference.  The primitive
variants are the spec's (§3.3). -/
inductive Typ where
  | Void
  | Unknown
  | Int
  | UInt
  | Float
  | Bool
  | Char
  | StringType
  | VoidPtr
  | Primitive (pos : Pos) (name : String)
  | Struct (pos : Pos) (name : String)
  | Union (pos : Pos) (name : String)
deriving DecidableEq, Repr

/-- Variable declaration (ast).  Variable::new receives the optional
declared type of parse_optional_type; an absent annotation is stored as
Unknown (gen_variable and gen_struct test `v.typ == Type::Unknown`). -/
structure Variable where
  name : String
  typ : Typ
  is_const : Bool
  public : Bool
  init : Expression
  span : Span

/-- Variable::new. -/
def Variable.new (name : String) (typ : Option Typ) (is_const public : Bool)
    (init : Expression) (span : Span) : Variable :=
  ⟨name, typ.getD .Unknown, is_const, public, init, span⟩

/-- Function argument (ast): name, type, constness, span. -/
structure Argument where
  name : String
  typ : Typ
  constant : Bool
  span : Span

/-- Argument::new. -/
def Argument.new (name : String) (typ : Typ) (constant : Bool) (span : Span) :
    Argument :=
  ⟨name, typ, constant, span⟩

/-- Function signature (ast): name, return type, arguments. -/
structure FunctionSignature where
  name : String
  return_type : Typ
  args : List Argument

/-- Union case (ast): case name, positional typed variables, span. -/
structure UnionCase where
  name : String
  vars : List Argument
  span : Span

/-- UnionCase::new. -/
def UnionCase.new (name : String) (span : Span) : UnionCase := ⟨name, [], span⟩

/-- Import (ast). -/
structure Import where
  file : String
  span : Span

/-- Import::new. -/
def Import.new (file : String) (span : Span) : Import := ⟨file, span⟩

/- Statement-level AST of the parser's commit (ast/statements of that
commit, reconstructed from every use in parser/statements.rs and
codegen/statements.rs). -/
mutual

inductive Statement where
  | Import (imp : Nomad.Import)
  | Variable (vars : List Nomad.Variable)
  | Function (f : Function)
  | ExternalFunction (ef : ExternalFunction)
  | While (w : While)
  | If (i : If)
  | Return (r : Return)
  | Struct (s : Struct)
  | Union (u : Union)
  | Match (m : Match)
  | Expression (e : Nomad.Expression)

inductive Block where
  | mk (statements : List Statement)

inductive Function where
  | mk (sig : FunctionSignature) (public : Bool) (block : Block) (span : Span)

inductive ExternalFunction where
  | mk (sig : FunctionSignature) (span : Span)

inductive While where
  | mk (cond : Nomad.Expression) (block : Block) (span : Span)

inductive If where
  | mk (cond : Nomad.Expression) (if_block : Block) (else_part : ElsePart) (span : Span)

inductive ElsePart where
  | Empty
  | Block (b : Block)
  | If (i : If)

inductive Return where
  | mk (expr : Nomad.Expression) (span : Span)

inductive Struct where
  | mk (name : String) (public : Bool) (vars : List Nomad.Variable)
       (functions : List Function) (span : Span)

inductive Union where
  | mk (name : String) (public : Bool) (cases : List UnionCase)
       (functions : List Function) (span : Span)

inductive Match where
  | mk (expr : Nomad.Expression) (cases : List MatchCase) (span : Span)

inductive MatchCase where
  | mk (name : String) (bindings : List String) (block : Block) (span : Span)

end

/-- Block::new. -/
def Block.new (statements : List Statement) : Block := .mk statements

/-- Block statements accessor. -/
def Block.statements : Block → List Statement
  | .mk s => s

/-- Function::new(name, ret, args, public, block, span) builds the
signature in place. -/
def Function.new (name : String) (ret : Typ) (args : List Argument)
    (public : Bool) (block : Block) (span : Span) : Function :=
  .mk ⟨name, ret, args⟩ public block span

/-- Function signature accessor. -/
def Function.sig : Function → FunctionSignature
  | .mk s _ _ _ => s

/-- Function visibility accessor. -/
def Function.public : Function → Bool
  | .mk _ p _ _ => p

/-- Function body accessor. -/
def Function.block : Function → Block
  | .mk _ _ b _ => b

/-- Function span accessor. -/
def Function.span : Function → Span
  | .mk _ _ _ s => s

/-- Struct::new. -/
def Struct.new (name : String) (public : Bool) (span : Span) : Struct :=
  .mk name public [] [] span

/-- Struct name accessor. -/
def Struct.name : Struct → String
  | .mk n _ _ _ _ => n

/-- Struct variables accessor. -/
def Struct.vars : Struct → List Variable
  | .mk _ _ v _ _ => v

/-- Struct functions accessor. -/
def Struct.functions : Struct → List Function
  | .mk _ _ _ f _ => f

/-- Struct span accessor. -/
def Struct.span : Struct → Span
  | .mk _ _ _ _ s => s

/-- Push a parsed method onto a struct (s.functions.push(..)). -/
def Struct.addFunction (s : Struct) (f : Function) : Struct :=
  match s with
  | .mk n p vs fs sp => .mk n p vs (fs ++ [f]) sp

/-- Extend a struct's variables (s.variables.extend(..)). -/
def Struct.addVariables (s : Struct) (vs2 : List Variable) : Struct :=
  match s with
  | .mk n p vs fs sp => .mk n p (vs ++ vs2) fs sp

/-- Set a struct's final span (s.span = ..). -/
def Struct.withSpan (s : Struct) (sp : Span) : Struct :=
  match s with
  | .mk n p vs fs _ => .mk n p vs fs sp

/-- Union::new. -/
def Union.new (name : String) (public : Bool) (span : Span) : Union :=
  .mk name public [] [] span

/-- Union name accessor. -/
def Union.name : Union → String
  | .mk n _ _ _ _ => n

/-- Union cases accessor. -/
def Union.cases : Union → List UnionCase
  | .mk _ _ c _ _ => c

/-- Union functions accessor. -/
def Union.functions : Union → List Function
  | .mk _ _ _ f _ => f

/-- Push a parsed case onto a union. -/
def Union.addCase (u : Union) (uc : UnionCase) : Union :=
  match u with
  | .mk n p cs fs sp => .mk n p (cs ++ [uc]) fs sp

/-- Push a parsed method onto a union. -/
def Union.addFunction (u : Union) (f : Function) : Union :=
  match u with
  | .mk n p cs fs sp => .mk n p cs (fs ++ [f]) sp

/-- Set a union's final span. -/
def Union.withSpan (u : Union) (sp : Span) : Union :=
  match u with
  | .mk n p cs fs _ => .mk n p cs fs sp

/-- While::new. -/
def While.new (cond : Expression) (block : Block) (span : Span) : While :=
  .mk cond block span

/-- If::new. -/
def If.new (cond : Expression) (if_block : Block) (else_part : ElsePart)
    (span : Span) : If :=
  .mk cond if_block else_part span

/-- Return::new. -/
def Return.new (expr : Expression) (span : Span) : Return := .mk expr span

/-- Return expression accessor. -/
def Return.expr : Return → Expression
  | .mk e _ => e

/-- Return span accessor. -/
def Return.span : Return → Span
  | .mk _ s => s

/-- While condition accessor. -/
def While.cond : While → Expression
  | .mk c _ _ => c

/-- While body accessor. -/
def While.block : While → Block
  | .mk _ b _ => b

/-- If condition accessor. -/
def If.cond : If → Expression
  | .mk c _ _ _ => c

/-- If then-block accessor. -/
def If.if_block : If → Block
  | .mk _ b _ _ => b

/-- If else-part accessor. -/
def If.else_part : If → ElsePart
  | .mk _ _ e _ => e

/-- ExternalFunction signature accessor. -/
def ExternalFunction.sig : ExternalFunction → FunctionSignature
  | .mk s _ => s

/-- ExternalFunction span accessor. -/
def ExternalFunction.span : ExternalFunction → Span
  | .mk _ s => s

/-- Match::new. -/
def Match.new (expr : Expression) (span : Span) : Match := .mk expr [] span

/-- Push a parsed case onto a match. -/
def Match.addCase (m : Match) (mc : MatchCase) : Match :=
  match m with
  | .mk e cs sp => .mk e (cs ++ [mc]) sp

/-- Set a match's final span. -/
def Match.withSpan (m : Match) (sp : Span) : Match :=
  match m with
  | .mk e cs _ => .mk e cs sp

/-- MatchCase::new. -/
def MatchCase.new (name : String) (bindings : List String) (block : Block)
    (span : Span) : MatchCase :=
  .mk name bindings block span

end Nomad

namespace Nomad

/-- parse_import from src/parser/statements.rs. -/
def parse_import (tq : TokenQueue) (pos : Pos) :
    Except CompileError (Statement × TokenQueue) :=
  match tq.expect_string with
  | .error e => .error e
  | .ok ((file, end_pos), tq) =>
    .ok (.Import (Import.new file (Span.new pos end_pos)), tq)

/-- parse_type from src/parser/statements.rs: a type is a bare identifier. -/
def parse_type (tq : TokenQueue) : Except CompileError (Typ × TokenQueue) :=
  match tq.expect_identifier with
  | .error e => .error e
  | .ok ((name, pos), tq) => .ok (.Primitive pos name, tq)

/-- parse_optional_type from src/parser/statements.rs. -/
def parse_optional_type (tq : TokenQueue) :
    Except CompileError (Option Typ × TokenQueue) :=
  if tq.is_next .Colon then
    match tq.pop with
    | .error e => .error e
    | .ok (_, tq) =>
      match parse_type tq with
      | .error e => .error e
      | .ok (t, tq) => .ok (some t, tq)
  else
    .ok (none, tq)

/-- eat_comma from src/parser/statements.rs. -/
def eat_comma (tq : TokenQueue) : Except CompileError (Unit × TokenQueue) :=
  match tq.pop_if (fun tok => tok.kind == .Comma) with
  | .error e => .error e
  | .ok (_, tq) => .ok ((), tq)

mutual

/-- Argument loop of parse_func (src/parser/statements.rs lines 104-132):
`self` is accepted with the enclosing type only while the argument list is
still empty; any later `self` fails with SelfNotAllowed; other arguments
require a `:`-separated type. -/
def parse_func_args (fuel : Nat) (tq : TokenQueue) (self_type : Typ)
    (args : List Argument) : PR (List Argument) :=
  match fuel with
  | 0 => none
  | fuel + 1 =>
    if tq.is_next .CloseParen then
      pok args tq
    else if tq.is_next .Const then
      ebind tq.pop fun _ tq => parse_func_args_name fuel tq self_type args true
    else
      parse_func_args_name fuel tq self_type args false
termination_by structural fuel

/-- Body of one argument-loop iteration after the optional `const`. -/
def parse_func_args_name (fuel : Nat) (tq : TokenQueue) (self_type : Typ)
    (args : List Argument) (const_arg : Bool) : PR (List Argument) :=
  match fuel with
  | 0 => none
  | fuel + 1 =>
    ebind tq.expect_identifier fun np tq =>
      let arg_name := np.1
      let arg_pos := np.2
      if arg_name == "self" then
        if args.isEmpty then
          parse_func_args_sep fuel tq self_type
            (args ++ [Argument.new arg_name self_type const_arg (Span.new arg_pos arg_pos)])
        else
          perr arg_pos .SelfNotAllowed
      else
        ebind (tq.expect .Colon) fun _ tq =>
          ebind (parse_type tq) fun typ tq =>
            parse_func_args_sep fuel tq self_type
              (args ++ [Argument.new arg_name typ const_arg (Span.new arg_pos tq.pos)])
termination_by structural fuel

/-- Separator step of the argument loop: stop unless a comma follows. -/
def parse_func_args_sep (fuel : Nat) (tq : TokenQueue) (self_type : Typ)
    (args : List Argument) : PR (List Argument) :=
  match fuel with
  | 0 => none
  | fuel + 1 =>
    if !tq.is_next .Comma then
      pok args tq
    else
      ebind (tq.expect .Comma) fun _ tq => parse_func_args fuel tq self_type args
termination_by structural fuel

end

/-- Variable loop of parse_union_case (src/parser/statements.rs
lines 262-269). -/
def parse_union_case_vars (fuel : Nat) (tq : TokenQueue)
    (uc : UnionCase) : PR UnionCase :=
  match fuel with
  | 0 => none
  | fuel + 1 =>
    if tq.is_next .CloseParen then
      pok uc tq
    else
      ebind tq.expect_identifier fun np tq =>
        let name := np.1
        let arg_pos := np.2
        ebind (tq.expect .Colon) fun _ tq =>
          ebind (parse_type tq) fun typ tq =>
            let uc := { uc with vars := uc.vars ++ [Argument.new name typ false (Span.new arg_pos tq.pos)] }
            ebind (eat_comma tq) fun _ tq =>
              parse_union_case_vars fuel tq uc

/-- parse_union_case from src/parser/statements.rs. -/
def parse_union_case (fuel : Nat) (tq : TokenQueue) : PR UnionCase :=
  ebind tq.expect_identifier fun np tq =>
    let name := np.1
    let pos := np.2
    let uc := UnionCase.new name Span.zero
    let afterVars : PR UnionCase :=
      if tq.is_next .OpenParen then
        ebind tq.pop fun _ tq =>
          pbind (parse_union_case_vars fuel tq uc) fun uc tq =>
            ebind (tq.expect .CloseParen) fun _ tq => pok uc tq
      else
        pok uc tq
    pbind afterVars fun uc tq =>
      ebind (eat_comma tq) fun _ tq =>
        pok { uc with span := Span.new pos tq.pos } tq

/-- Binding loop of parse_match_case (src/parser/statements.rs
lines 320-331). -/
def parse_match_case_bindings (fuel : Nat) (tq : TokenQueue)
    (bindings : List String) : PR (List String) :=
  match fuel with
  | 0 => none
  | fuel + 1 =>
    if tq.is_next .CloseParen then
      pok bindings tq
    else
      ebind tq.expect_identifier fun np tq =>
        ebind (eat_comma tq) fun _ tq =>
          parse_match_case_bindings fuel tq (bindings ++ [np.1])

end Nomad

namespace Nomad

mutual

/-- parse_vars from src/parser/statements.rs (the declaration loop shared
by `var` and `const`). -/
def parse_vars (fuel : Nat) (tq : TokenQueue) (indent_level : Nat)
    (constants public : Bool) (vars : List Variable) : PR (List Variable) :=
  match fuel with
  | 0 => none
  | fuel + 1 =>
    let indent_break := match tq.next_indent with
      | some level => decide (level ≤ indent_level)
      | none => false
    if indent_break then
      pok vars tq
    else
      ebind tq.pop fun tok tq =>
        match tok.kind with
        | .Identifier id =>
          ebind (parse_optional_type tq) fun type_of_var tq =>
            ebind (tq.expect (.Operator .Assign)) fun _ tq =>
              pbind (parse_expression fuel tq indent_level) fun expr tq =>
                parse_vars fuel tq indent_level constants public
                  (vars ++ [Variable.new id type_of_var constants public expr
                    (Span.new tok.span.start tq.pos)])
        | .Comma | .Indent _ =>
          parse_vars fuel tq indent_level constants public vars
        | .EOF => pok vars tq
        | _ => perr tok.span.start (.UnexpectedToken tok)
termination_by structural fuel

/-- parse_block from src/parser/statements.rs: a single-line block when no
indent token follows, then all statements at strictly deeper indentation. -/
def parse_block (fuel : Nat) (tq : TokenQueue) (indent_level : Nat) : PR Block :=
  match fuel with
  | 0 => none
  | fuel + 1 =>
    if tq.next_indent.isNone then
      pbind (parse_statement fuel tq indent_level) fun s tq =>
        parse_block_loop fuel tq indent_level [s]
    else
      parse_block_loop fuel tq indent_level []
termination_by structural fuel

/-- Statement loop of parse_block. -/
def parse_block_loop (fuel : Nat) (tq : TokenQueue) (indent_level : Nat)
    (stmts : List Statement) : PR Block :=
  match fuel with
  | 0 => none
  | fuel + 1 =>
    match tq.next_indent with
    | some lvl =>
      if lvl > indent_level then
        ebind tq.expect_indent fun _ tq =>
          if tq.is_next .EOF then
            pok (Block.new stmts) tq
          else
            pbind (parse_statement fuel tq lvl) fun s tq =>
              parse_block_loop fuel tq indent_level (stmts ++ [s])
      else
        pok (Block.new stmts) tq
    | none => pok (Block.new stmts) tq
termination_by structural fuel

/-- parse_func from src/parser/statements.rs: name, argument list (with the
`self` rule), optional `->` return type defaulting to Void, `:`, body. -/
def parse_func (fuel : Nat) (tq : TokenQueue) (indent_level : Nat)
    (public : Bool) (self_type : Typ) : PR Function :=
  match fuel with
  | 0 => none
  | fuel + 1 =>
    ebind tq.expect_identifier fun np tq =>
      let name := np.1
      let name_pos := np.2
      ebind (tq.expect .OpenParen) fun _ tq =>
        pbind (parse_func_args fuel tq self_type []) fun args tq =>
          ebind (tq.expect .CloseParen) fun _ tq =>
            let retPart : PR Typ :=
              if tq.is_next (.Operator .Arrow) then
                ebind tq.pop fun _ tq =>
                  ebind (parse_type tq) fun t tq => pok t tq
              else
                pok Typ.Void tq
            pbind retPart fun ret_type tq =>
              ebind (tq.expect .Colon) fun _ tq =>
                pbind (parse_block fuel tq indent_level) fun block tq =>
                  pok (Function.new name ret_type args public block
                    (Span.new name_pos tq.pos)) tq
termination_by structural fuel

/-- parse_while from src/parser/statements.rs. -/
def parse_while (fuel : Nat) (tq : TokenQueue) (indent_level : Nat)
    (pos : Pos) : PR Statement :=
  match fuel with
  | 0 => none
  | fuel + 1 =>
    pbind (parse_expression fuel tq indent_level) fun cond tq =>
      ebind (tq.expect .Colon) fun _ tq =>
        pbind (parse_block fuel tq indent_level) fun block tq =>
          pok (.While (While.new cond block (Span.new pos tq.pos))) tq
termination_by structural fuel

/-- parse_else from src/parser/statements.rs. -/
def parse_else (fuel : Nat) (tq : TokenQueue) (indent_level : Nat) : PR ElsePart :=
  match fuel with
  | 0 => none
  | fuel + 1 =>
    if tq.is_next .If then
      ebind tq.pop fun tok tq =>
        pbind (parse_if fuel tq indent_level tok.span.start) fun i tq =>
          pok (.If i) tq
    else
      ebind (tq.expect .Colon) fun _ tq =>
        pbind (parse_block fuel tq indent_level) fun b tq =>
          pok (.Block b) tq
termination_by structural fuel

/-- parse_if from src/parser/statements.rs: condition, `:`, block, and an
optional `else` at the same indentation level. -/
def parse_if (fuel : Nat) (tq : TokenQueue) (indent_level : Nat)
    (pos : Pos) : PR If :=
  match fuel with
  | 0 => none
  | fuel + 1 =>
    pbind (parse_expression fuel tq indent_level) fun cond tq =>
      ebind (tq.expect .Colon) fun _ tq =>
        pbind (parse_block fuel tq indent_level) fun if_block tq =>
          match tq.next_indent with
          | some lvl =>
            if lvl == indent_level && tq.is_next_at 1 .Else then
              ebind tq.pop fun _ tq =>
                ebind tq.pop fun _ tq =>
                  pbind (parse_else fuel tq indent_level) fun else_part tq =>
                    pok (If.new cond if_block else_part (Span.new pos tq.pos)) tq
            else
              pok (If.new cond if_block .Empty (Span.new pos tq.pos)) tq
          | none => pok (If.new cond if_block .Empty (Span.new pos tq.pos)) tq
termination_by structural fuel

/-- parse_return from src/parser/statements.rs. -/
def parse_return (fuel : Nat) (tq : TokenQueue) (indent_level : Nat)
    (pos : Pos) : PR Statement :=
  match fuel with
  | 0 => none
  | fuel + 1 =>
    pbind (parse_expression fuel tq indent_level) fun e tq =>
      pok (.Return (Return.new e (Span.new pos tq.pos))) tq

/-- parse_struct_member from src/parser/statements.rs. -/
def parse_struct_member (fuel : Nat) (tq : TokenQueue) (indent_level : Nat)
    (public : Bool) (s : Struct) : PR Struct :=
  match fuel with
  | 0 => none
  | fuel + 1 =>
    ebind tq.pop fun tok tq =>
      match tok.kind with
      | .Pub => parse_struct_member fuel tq indent_level true s
      | .Func =>
        let st := Typ.Struct tok.span.start s.name
        pbind (parse_func fuel tq indent_level public st) fun f tq =>
          pok (s.addFunction f) tq
      | .Var =>
        pbind (parse_vars fuel tq indent_level false public []) fun vs tq =>
          pok (s.addVariables vs) tq
      | .Const =>
        pbind (parse_vars fuel tq indent_level true public []) fun vs tq =>
          pok (s.addVariables vs) tq
      | .EOF => pok s tq
      | _ => perr tok.span.start (.UnexpectedToken tok)
termination_by structural fuel

/-- Member loop of parse_struct. -/
def parse_struct_loop (fuel : Nat) (tq : TokenQueue) (indent_level : Nat)
    (s : Struct) : PR Struct :=
  match fuel with
  | 0 => none
  | fuel + 1 =>
    match tq.next_indent with
    | some level =>
      if level ≤ indent_level then
        pok s tq
      else
        ebind tq.pop fun _ tq =>
          pbind (parse_struct_member fuel tq level false s) fun s tq =>
            parse_struct_loop fuel tq indent_level s
    | none => pok s tq
termination_by structural fuel

/-- parse_struct from src/parser/statements.rs. -/
def parse_struct (fuel : Nat) (tq : TokenQueue) (indent_level : Nat)
    (public : Bool) (pos : Pos) : PR Struct :=
  match fuel with
  | 0 => none
  | fuel + 1 =>
    ebind tq.expect_identifier fun np tq =>
      ebind (tq.expect .Colon) fun _ tq =>
        pbind (parse_struct_loop fuel tq indent_level (Struct.new np.1 public Span.zero))
          fun s tq => pok (s.withSpan (Span.new pos tq.pos)) tq
termination_by structural fuel

/-- parse_union_member from src/parser/statements.rs. -/
def parse_union_member (fuel : Nat) (tq : TokenQueue) (indent_level : Nat)
    (public : Bool) (ut : Typ) : PR Function :=
  match fuel with
  | 0 => none
  | fuel + 1 =>
    ebind tq.pop fun tok tq =>
      match tok.kind with
      | .Pub => parse_union_member fuel tq indent_level true ut
      | .Func => parse_func fuel tq indent_level public ut
      | _ => perr tok.span.start (.UnexpectedToken tok)
termination_by structural fuel

/-- Case/member loop of parse_union, with the running indentation the
source keeps in the mutable `indent` binding. -/
def parse_union_loop (fuel : Nat) (tq : TokenQueue) (indent_level indent : Nat)
    (u : Union) : PR Union :=
  match fuel with
  | 0 => none
  | fuel + 1 =>
    match tq.next_indent with
    | some level =>
      if level ≤ indent_level then
        pok u tq
      else
        ebind tq.pop fun _ tq =>
          parse_union_loop fuel tq indent_level level u
    | none =>
      if tq.is_next_identifier then
        pbind (parse_union_case fuel tq) fun uc tq =>
          parse_union_loop fuel tq indent_level indent (u.addCase uc)
      else if tq.is_next .EOF then
        pok u tq
      else
        let pos := tq.pos
        pbind (parse_union_member fuel tq indent false (.Union pos u.name)) fun f tq =>
          parse_union_loop fuel tq indent_level indent (u.addFunction f)
termination_by structural fuel

/-- parse_union from src/parser/statements.rs. -/
def parse_union (fuel : Nat) (tq : TokenQueue) (indent_level : Nat)
    (public : Bool) : PR Union :=
  match fuel with
  | 0 => none
  | fuel + 1 =>
    ebind tq.expect_identifier fun np tq =>
      ebind (tq.expect .Colon) fun _ tq =>
        pbind (parse_union_loop fuel tq indent_level indent_level
            (Union.new np.1 public Span.zero)) fun u tq =>
          pok (u.withSpan (Span.new np.2 tq.pos)) tq
termination_by structural fuel

/-- parse_match_case from src/parser/statements.rs. -/
def parse_match_case (fuel : Nat) (tq : TokenQueue) (indent_level : Nat) :
    PR MatchCase :=
  match fuel with
  | 0 => none
  | fuel + 1 =>
    ebind tq.expect_identifier fun np tq =>
      let bindingsPart : PR (List String) :=
        if tq.is_next .OpenParen then
          ebind tq.pop fun _ tq =>
            pbind (parse_match_case_bindings fuel tq []) fun bs tq =>
              ebind (tq.expect .CloseParen) fun _ tq => pok bs tq
        else
          pok [] tq
      pbind bindingsPart fun bindings tq =>
        ebind (tq.expect .Colon) fun _ tq =>
          pbind (parse_block fuel tq indent_level) fun block tq =>
            pok (MatchCase.new np.1 bindings block (Span.new np.2 tq.pos)) tq
termination_by structural fuel

/-- Case loop of parse_match. -/
def parse_match_loop (fuel : Nat) (tq : TokenQueue) (indent_level : Nat)
    (m : Match) : PR Match :=
  match fuel with
  | 0 => none
  | fuel + 1 =>
    match tq.next_indent with
    | some level =>
      if level ≤ indent_level then
        pok m tq
      else
        ebind tq.pop fun _ tq =>
          if tq.is_next .EOF then
            pok m tq
          else
            pbind (parse_match_case fuel tq level) fun mc tq =>
              parse_match_loop fuel tq indent_level (m.addCase mc)
    | none => pok m tq
termination_by structural fuel

/-- parse_match from src/parser/statements.rs. -/
def parse_match (fuel : Nat) (tq : TokenQueue) (indent_level : Nat)
    (pos : Pos) : PR Statement :=
  match fuel with
  | 0 => none
  | fuel + 1 =>
    pbind (parse_expression fuel tq indent_level) fun expr tq =>
      ebind (tq.expect .Colon) fun _ tq =>
        pbind (parse_match_loop fuel tq indent_level (Match.new expr Span.zero))
          fun m tq => pok (.Match (m.withSpan (Span.new pos tq.pos))) tq
termination_by structural fuel

/-- parse_statement from src/parser/statements.rs: dispatch on the first
token of the statement. -/
def parse_statement (fuel : Nat) (tq : TokenQueue) (indent_level : Nat) :
    PR Statement :=
  match fuel with
  | 0 => none
  | fuel + 1 =>
    ebind tq.pop fun tok tq =>
      match tok.kind with
      | .Import => ebind (parse_import tq tok.span.start) fun s tq => pok s tq
      | .Var =>
        pbind (parse_vars fuel tq indent_level false false []) fun v tq =>
          pok (.Variable v) tq
      | .Const =>
        pbind (parse_vars fuel tq indent_level true false []) fun v tq =>
          pok (.Variable v) tq
      | .Func =>
        pbind (parse_func fuel tq indent_level false .Void) fun f tq =>
          pok (.Function f) tq
      | .Struct =>
        pbind (parse_struct fuel tq indent_level false tok.span.start) fun s tq =>
          pok (.Struct s) tq
      | .Union =>
        pbind (parse_union fuel tq indent_level false) fun u tq =>
          pok (.Union u) tq
      | .While => parse_while fuel tq indent_level tok.span.start
      | .If =>
        pbind (parse_if fuel tq indent_level tok.span.start) fun i tq =>
          pok (.If i) tq
      | .Return => parse_return fuel tq indent_level tok.span.start
      | .Match => parse_match fuel tq indent_level tok.span.start
      | .Identifier id =>
        let tq := tq.push_front (Token.new (.Identifier id) tok.span)
        pbind (parse_expression fuel tq indent_level) fun e tq =>
          pok (.Expression e) tq
      | .Pub =>
        ebind tq.pop fun next tq =>
          match next.kind with
          | .Var =>
            pbind (parse_vars fuel tq indent_level false true []) fun v tq =>
              pok (.Variable v) tq
          | .Const =>
            pbind (parse_vars fuel tq indent_level true true []) fun v tq =>
              pok (.Variable v) tq
          | .Func =>
            pbind (parse_func fuel tq indent_level true .Void) fun f tq =>
              pok (.Function f) tq
          | .Struct =>
            pbind (parse_struct fuel tq indent_level true next.span.start) fun s tq =>
              pok (.Struct s) tq
          | .Union =>
            pbind (parse_union fuel tq indent_level true) fun u tq =>
              pok (.Union u) tq
          | _ => perr tok.span.start (.UnexpectedToken next)
      | _ => perr tok.span.start (.UnexpectedToken tok)
termination_by structural fuel

end

end Nomad

namespace Nomad

/-- Lowered IR types (the LLVMTypeRef values the old code generator
produces).  Modelled from the spec (§4.5): primitives lower to machine
types, aggregates to struct types. -/
inductive LLVMType where
  | VoidT
  | I1
  | I8
  | I64
  | F64
  | Ptr (inner : LLVMType)
  | StructT (fields : List LLVMType)
  | FuncT (ret : LLVMType) (args : List LLVMType)

mutual

/-- Structural equality of IR types: LLVM uniques structural types, so
handle equality of LLVMTypeRef is structural equality here. -/
def LLVMType.beq : LLVMType → LLVMType → Bool
  | .VoidT, .VoidT => true
  | .I1, .I1 => true
  | .I8, .I8 => true
  | .I64, .I64 => true
  | .F64, .F64 => true
  | .Ptr a, .Ptr b => LLVMType.beq a b
  | .StructT fs, .StructT gs => LLVMType.beqList fs gs
  | .FuncT r as2, .FuncT s bs => LLVMType.beq r s && LLVMType.beqList as2 bs
  | _, _ => false

/-- Structural equality on lists of IR types. -/
def LLVMType.beqList : List LLVMType → List LLVMType → Bool
  | [], [] => true
  | a :: as2, b :: bs => LLVMType.beq a b && LLVMType.beqList as2 bs
  | _, _ => false

end

instance : BEq LLVMType := ⟨LLVMType.beq⟩

/-- IR value handle: an identity together with its IR type (LLVMTypeOf). -/
structure LLVMValue where
  id : Nat
  ty : LLVMType

/-- LLVMTypeOf. -/
def LLVMTypeOf (v : LLVMValue) : LLVMType := v.ty

/-- Emitted IR instructions, in emission order inside each basic block. -/
inductive Instr where
  | Alloca (result : LLVMValue) (ty : LLVMType)
  | Store (val : LLVMValue) (ptr : LLVMValue)
  | Load (result : LLVMValue) (ptr : LLVMValue)
  | BinI (result : LLVMValue) (op : Operator) (l r : LLVMValue)
  | UnI (result : LLVMValue) (op : Operator) (v : LLVMValue)
  | CallI (result : LLVMValue) (callee : String) (args : List LLVMValue)
  | Br (bb : Nat)
  | CondBr (cond : LLVMValue) (then_bb else_bb : Nat)
  | Ret (v : LLVMValue)
  | RetVoid

/-- A basic block: handle, name, and its instructions. -/
structure BasicBlock where
  id : Nat
  name : String
  instrs : List Instr

/-- An IR function in the module. -/
structure IRFunction where
  name : String
  ty : LLVMType
  blocks : List BasicBlock

/-- The IR module: the functions added so far. -/
structure IRModule where
  functions : List IRFunction

/-- A function instance as the old code generator records it
(codegen/statements.rs): lowered argument and return types, the IR
function handle (its name), the signature and visibility. -/
structure FunctionInstance where
  name : String
  args : List LLVMType
  return_type : LLVMType
  function : String
  sig : FunctionSignature
  public : Bool

/-- A struct member as the old code generator records it
(StructMemberVar in codegen/statements.rs). -/
structure StructMemberVar where
  name : String
  typ : Typ
  llvm_typ : LLVMType
  constant : Bool
  public : Bool
  init : Expression

/-- A lowered struct type (StructType in codegen/statements.rs). -/
structure StructType where
  name : String
  typ : LLVMType
  members : List StructMemberVar

/-- A variable slot in a stack frame: storage, constness, language type. -/
structure VarEntry where
  slot : LLVMValue
  constant : Bool
  typ : Typ

/-- Modelled from the spec (§4.5): one lexical scope frame of the codegen
context, holding the current function and basic block and the per-scope
variable, function and complex-type tables (context.rs is absent from the
snapshot). -/
structure StackFrame where
  func : String
  currentBB : Nat
  vars : List (String × VarEntry)
  functions : List FunctionInstance
  complexTypes : List StructType

/-- Modelled from the spec (§4.5): the codegen context: module and builder
handles and the stack of scope frames. -/
structure Context where
  module : IRModule
  builder : Option (String × Nat)
  nextId : Nat
  frames : List StackFrame

/-- Fresh value of a given IR type. -/
def Context.fresh (ctx : Context) (ty : LLVMType) : LLVMValue × Context :=
  (⟨ctx.nextId, ty⟩, { ctx with nextId := ctx.nextId + 1 })

/-- LLVMAddFunction: add an empty IR function to the module, its handle is
its name. -/
def Context.addIRFunction (ctx : Context) (name : String) (ty : LLVMType) : Context :=
  { ctx with module := ⟨ctx.module.functions ++ [⟨name, ty, []⟩]⟩ }

/-- LLVMAppendBasicBlockInContext: append a fresh basic block to a
function, returning its handle. -/
def Context.appendBB (ctx : Context) (fn : String) (name : String) : Nat × Context :=
  let bbId := ctx.nextId
  let addTo := fun (f : IRFunction) =>
    if f.name == fn then { f with blocks := f.blocks ++ [⟨bbId, name, []⟩] } else f
  (bbId, { ctx with
            nextId := ctx.nextId + 1,
            module := ⟨ctx.module.functions.map addTo⟩ })

/-- LLVMPositionBuilderAtEnd. -/
def Context.positionAtEnd (ctx : Context) (fn : String) (bb : Nat) : Context :=
  { ctx with builder := some (fn, bb) }

/-- Append an instruction at the end of one basic block when it is the
builder's block. -/
def updateBlock (bb : Nat) (i : Instr) (b : BasicBlock) : BasicBlock :=
  if b.id == bb then { b with instrs := b.instrs ++ [i] } else b

/-- Append an instruction inside one function when it is the builder's
function. -/
def updateFunction (fn : String) (bb : Nat) (i : Instr) (f : IRFunction) :
    IRFunction :=
  if f.name == fn then { f with blocks := f.blocks.map (updateBlock bb i) }
  else f

/-- Append an instruction at the builder position. -/
def Context.emit (ctx : Context) (i : Instr) : Context :=
  match ctx.builder with
  | none => ctx
  | some (fn, bb) =>
    { ctx with module := ⟨ctx.module.functions.map (updateFunction fn bb i)⟩ }

/-- push_stack_frame(function, entry_bb). -/
def Context.push_stack_frame (ctx : Context) (fn : String) (bb : Nat) : Context :=
  { ctx with frames := ⟨fn, bb, [], [], []⟩ :: ctx.frames }

/-- pop_stack_frame(). -/
def Context.pop_stack_frame (ctx : Context) : Context :=
  { ctx with frames := ctx.frames.tail }

/-- Update the top stack frame in place. -/
def Context.mapTop (ctx : Context) (f : StackFrame → StackFrame) : Context :=
  match ctx.frames with
  | [] => ctx
  | top :: rest => { ctx with frames := f top :: rest }

/-- top_stack_frame().add_variable(..). -/
def Context.add_variable (ctx : Context) (name : String) (slot : LLVMValue)
    (constant : Bool) (typ : Typ) : Context :=
  ctx.mapTop fun fr => { fr with vars := (name, ⟨slot, constant, typ⟩) :: fr.vars }

/-- top_stack_frame().add_function(..). -/
def Context.add_function (ctx : Context) (fi : FunctionInstance) : Context :=
  ctx.mapTop fun fr => { fr with functions := fi :: fr.functions }

/-- top_stack_frame().add_complex_type(..). -/
def Context.add_complex_type (ctx : Context) (st : StructType) : Context :=
  ctx.mapTop fun fr => { fr with complexTypes := st :: fr.complexTypes }

/-- has_variable: does any live scope bind this name (spec §4.5: lexically
nested scopes). -/
def Context.has_variable (ctx : Context) (name : String) : Bool :=
  ctx.frames.any fun fr => fr.vars.any fun v => v.1 == name

/-- Variable lookup across the scope stack. -/
def Context.get_variable (ctx : Context) (name : String) : Option VarEntry :=
  (ctx.frames.findSome? fun fr =>
    (fr.vars.find? fun v => v.1 == name)).map (·.2)

/-- has_function: does any live scope register a function of this name. -/
def Context.has_function (ctx : Context) (name : String) : Bool :=
  ctx.frames.any fun fr => fr.functions.any fun fi => fi.name == name

/-- get_complex_type: look a struct name up across the scope stack. -/
def Context.get_complex_type (ctx : Context) (name : String) : Option StructType :=
  ctx.frames.findSome? fun fr => fr.complexTypes.find? fun st => st.name == name

/-- Current basic block of the top frame (get_current_bb). -/
def Context.top_current_bb (ctx : Context) : Nat :=
  match ctx.frames with
  | fr :: _ => fr.currentBB
  | [] => 0

/-- Current function of the top frame (get_current_function). -/
def Context.top_current_function (ctx : Context) : String :=
  match ctx.frames with
  | fr :: _ => fr.func
  | [] => ""

/-- set_current_bb on the top frame. -/
def Context.set_current_bb (ctx : Context) (bb : Nat) : Context :=
  ctx.mapTop fun fr => { fr with currentBB := bb }

/-- Modelled from the spec (§4.5): resolve_type yields an IR type handle or
none.  Primitive names follow §3.3; named aggregates resolve through the
complex-type registry. -/
def Context.resolve_type (ctx : Context) (t : Typ) : Option LLVMType :=
  match t with
  | .Void => some .VoidT
  | .Int => some .I64
  | .UInt => some .I64
  | .Float => some .F64
  | .Bool => some .I1
  | .Char => some .I8
  | .StringType => some (.Ptr .I8)
  | .VoidPtr => some (.Ptr .I8)
  | .Unknown => none
  | .Primitive _ name =>
    if name == "int" then some .I64
    else if name == "uint" then some .I64
    else if name == "float" then some .F64
    else if name == "bool" then some .I1
    else if name == "char" then some .I8
    else if name == "void" then some .VoidT
    else if name == "string" then some (.Ptr .I8)
    else none
  | .Struct _ name => (ctx.get_complex_type name).map (·.typ)
  | .Union _ name => (ctx.get_complex_type name).map (·.typ)

/-- Modelled from the spec (§4.4): infer_type gives literals their literal
types and name references the type recorded in scope. -/
def Context.infer_type (ctx : Context) (e : Expression) :
    Except CompileError Typ :=
  match e with
  | .IntLiteral _ _ => .ok .Int
  | .FloatLiteral _ _ => .ok .Float
  | .StringLiteral _ _ => .ok .StringType
  | .Enclosed _ inner => ctx.infer_type inner
  | .NameRef name span =>
    match ctx.get_variable name with
    | some v => .ok v.typ
    | none => err span.start (.TypeError ("Unknown name " ++ name))
  | other => err other.span.start (.TypeError "Cannot infer type")

/-- Codegen results: value plus the threaded context, or an error with the
context as mutated so far (the Rust functions mutate &mut Context in
place); none when recursion fuel runs out. -/
abbrev GR (α : Type) := Option (Except CompileError α × Context)

/-- Successful codegen step. -/
def gok {α : Type} (a : α) (ctx : Context) : GR α := some (.ok a, ctx)

/-- Failing codegen step: the error and the context as already mutated. -/
def gerr {α : Type} (pos : Pos) (e : ErrorType) (ctx : Context) : GR α :=
  some (.error ⟨pos, e⟩, ctx)

/-- Sequencing of codegen steps. -/
def gbind {α β : Type} (x : GR α) (f : α → Context → GR β) : GR β :=
  match x with
  | none => none
  | some (.error e, ctx) => some (.error e, ctx)
  | some (.ok a, ctx) => f a ctx

end Nomad

namespace Nomad

/-- Return type recorded for the current frame's function (the frame's
return_type() accessor reads the IR function's type). -/
def Context.frame_return_type (ctx : Context) : LLVMType :=
  match ctx.module.functions.find? (fun f => f.name == ctx.top_current_function) with
  | some f =>
    match f.ty with
    | .FuncT ret _ => ret
    | _ => .VoidT
  | none => .VoidT

/-- Function lookup across the scope stack (get_function). -/
def Context.get_function (ctx : Context) (name : String) : Option FunctionInstance :=
  ctx.frames.findSome? fun fr => fr.functions.find? fun fi => fi.name == name

/-- Comparison operators lower to i1-valued comparisons. -/
def Operator.is_comparison : Operator → Bool
  | .LessThan | .GreaterThan | .LessThanEquals | .GreaterThanEquals
  | .Equals | .NotEquals | .And | .Or => true
  | _ => false

mutual

/-- Modelled from the spec (§4.6.3): gen_expression lowers an expression to
an IR value (codegen/expressions.rs of the old commit is absent from the
snapshot).  Literals become constants of the matching IR type (float
lexemes are parsed at emission time), unary and binary operations lower
their operands and emit one instruction, name references load from the
variable's slot, assignments store into it, and calls lower their
arguments and emit a call. -/
def gen_expression (fuel : Nat) (ctx : Context) (e : Expression) : GR LLVMValue :=
  match fuel with
  | 0 => none
  | fuel + 1 =>
    match e with
    | .IntLiteral _ _ =>
      let (v, ctx) := ctx.fresh .I64
      gok v ctx
    | .FloatLiteral span text =>
      if parse_f64_ok text then
        let (v, ctx) := ctx.fresh .F64
        gok v ctx
      else
        gerr span.start (.CodegenError "invalid floating point literal") ctx
    | .StringLiteral _ _ =>
      let (v, ctx) := ctx.fresh (.Ptr .I8)
      gok v ctx
    | .Enclosed _ inner => gen_expression fuel ctx inner
    | .UnaryOp op inner _ =>
      gbind (gen_expression fuel ctx inner) fun v ctx =>
        let (r, ctx) := ctx.fresh (LLVMTypeOf v)
        gok r (ctx.emit (.UnI r op v))
    | .BinaryOp op l r _ =>
      gbind (gen_expression fuel ctx l) fun lv ctx =>
        gbind (gen_expression fuel ctx r) fun rv ctx =>
          let rty := if op.is_comparison then LLVMType.I1 else LLVMTypeOf lv
          let (res, ctx) := ctx.fresh rty
          gok res (ctx.emit (.BinI res op lv rv))
    | .Assignment op target value span =>
      match target with
      | .NameRef name nspan =>
        match ctx.get_variable name with
        | some entry =>
          gbind (gen_expression fuel ctx value) fun rv ctx =>
            if op == .Assign then
              gok rv (ctx.emit (.Store rv entry.slot))
            else
              let combine := if op == .AddAssign then Operator.Add else Operator.Sub
              let lty := match entry.slot.ty with
                | .Ptr t => t
                | other => other
              let (cur, ctx) := ctx.fresh lty
              let ctx := ctx.emit (.Load cur entry.slot)
              let (res, ctx) := ctx.fresh lty
              let ctx := ctx.emit (.BinI res combine cur rv)
              gok res (ctx.emit (.Store res entry.slot))
        | none => gerr nspan.start (.TypeError ("Unknown name " ++ name)) ctx
      | _ => gerr span.start (.TypeError "Invalid assignment target") ctx
    | .NameRef name span =>
      match ctx.get_variable name with
      | some entry =>
        let lty := match entry.slot.ty with
          | .Ptr t => t
          | other => other
        let (res, ctx) := ctx.fresh lty
        gok res (ctx.emit (.Load res entry.slot))
      | none => gerr span.start (.TypeError ("Unknown name " ++ name)) ctx
    | .Call name args span =>
      gbind (gen_expr_list fuel ctx args) fun argvs ctx =>
        match ctx.get_function name with
        | some fi =>
          let (res, ctx) := ctx.fresh fi.return_type
          gok res (ctx.emit (.CallI res fi.function argvs))
        | none => gerr span.start (.TypeError ("Unknown function " ++ name)) ctx
    | other =>
      gerr other.span.start
        (.CodegenError "expression form not lowered by this codegen commit") ctx
termination_by structural fuel

/-- Lower a list of expressions left to right. -/
def gen_expr_list (fuel : Nat) (ctx : Context) (es : List Expression) :
    GR (List LLVMValue) :=
  match fuel with
  | 0 => none
  | fuel + 1 =>
    match es with
    | [] => gok [] ctx
    | e :: rest =>
      gbind (gen_expression fuel ctx e) fun v ctx =>
        gbind (gen_expr_list fuel ctx rest) fun vs ctx =>
          gok (v :: vs) ctx
termination_by structural fuel

end

/-- gen_import from src/codegen/statements.rs: unimplemented in the source,
it fails with UnexpectedEOF at position (0,0). -/
def gen_import (ctx : Context) (_imp : Import) : GR Unit :=
  gerr ⟨0, 0⟩ .UnexpectedEOF ctx

/-- gen_union from src/codegen/statements.rs: unimplemented in the source,
it fails with UnexpectedEOF at position (0,0). -/
def gen_union (ctx : Context) (_u : Union) : GR Unit :=
  gerr ⟨0, 0⟩ .UnexpectedEOF ctx

/-- gen_match from src/codegen/statements.rs: unimplemented in the source,
it fails with UnexpectedEOF at position (0,0). -/
def gen_match (ctx : Context) (_m : Match) : GR Unit :=
  gerr ⟨0, 0⟩ .UnexpectedEOF ctx

/-- gen_variable from src/codegen/statements.rs: redefinition check first,
then initializer lowering, type inference/resolution and the equality check
between declared and initializer IR types, then the alloca/store and the
scope registration. -/
def gen_variable (fuel : Nat) (ctx : Context) (v : Variable) : GR Unit :=
  if ctx.has_variable v.name then
    gerr v.span.start (.RedefinitionOfVariable v.name) ctx
  else
    gbind (gen_expression fuel ctx v.init) fun initial_value ctx =>
      let initial_value_type := LLVMTypeOf initial_value
      match (if v.typ == Typ.Unknown then ctx.infer_type v.init else .ok v.typ) with
      | .error e => some (.error e, ctx)
      | .ok v_typ =>
        match ctx.resolve_type v_typ with
        | some llvm_type_ref =>
          if !(llvm_type_ref == initial_value_type) then
            gerr v.span.start (.TypeError "Mismatched types in initialization") ctx
          else
            let (var, ctx) := ctx.fresh (.Ptr initial_value_type)
            let ctx := ctx.emit (.Alloca var initial_value_type)
            let ctx := ctx.emit (.Store initial_value var)
            let ctx := ctx.add_variable v.name var v.is_const v_typ
            gok () ctx
        | none => gerr v.span.start (.TypeError "Unknown type") ctx

/-- Resolve the argument types of a signature (the argument loop of
gen_function_sig). -/
def resolve_arg_types (ctx : Context) : List Argument →
    Except CompileError (List LLVMType)
  | [] => .ok []
  | arg :: rest =>
    match ctx.resolve_type arg.typ with
    | some t =>
      match resolve_arg_types ctx rest with
      | .ok ts => .ok (t :: ts)
      | .error e => .error e
    | none =>
      err arg.span.start
        (.TypeError ("Cannot resolve the type of argument " ++ arg.name))

/-- gen_function_sig from src/codegen/statements.rs: resolve the return and
argument types, add the IR function to the module and build the
FunctionInstance. -/
def gen_function_sig (ctx : Context) (sig : FunctionSignature) (public : Bool)
    (span : Span) : GR FunctionInstance :=
  match ctx.resolve_type sig.return_type with
  | none =>
    gerr span.start
      (.TypeError ("Cannot resolve the return type of function " ++ sig.name)) ctx
  | some ret_type =>
    match resolve_arg_types ctx sig.args with
    | .error e => some (.error e, ctx)
    | .ok arg_types =>
      let function_type := LLVMType.FuncT ret_type arg_types
      let ctx := ctx.addIRFunction sig.name function_type
      gok ⟨sig.name, arg_types, ret_type, sig.name, sig, public⟩ ctx

/-- Argument spill loop of gen_function: one stack slot per parameter, the
incoming value stored into it, the name registered in the frame. -/
def gen_function_args (ctx : Context) : List (Argument × LLVMType) → Context
  | [] => ctx
  | (arg, aty) :: rest =>
    let (var, ctx) := ctx.fresh aty
    let (alloc, ctx) := ctx.fresh (.Ptr aty)
    let ctx := ctx.emit (.Alloca alloc aty)
    let ctx := ctx.emit (.Store var alloc)
    let ctx := ctx.add_variable arg.name alloc arg.constant arg.typ
    gen_function_args ctx rest

/-- gen_return from src/codegen/statements.rs: lower the expression, check
its IR type against the frame's return type, emit ret. -/
def gen_return (fuel : Nat) (ctx : Context) (r : Return) : GR Unit :=
  gbind (gen_expression fuel ctx r.expr) fun ret ctx =>
    let ret_type := LLVMTypeOf ret
    let func_type := ctx.frame_return_type
    if !(ret_type == func_type) then
      gerr r.span.start (.TypeError "Attempting to return the wrong type") ctx
    else
      gok () (ctx.emit (.Ret ret))

/-- Member lowering loop of gen_struct: infer/resolve each member's type. -/
def gen_struct_members (ctx : Context) (struct_name : String) :
    List Variable → Except CompileError (List StructMemberVar × List LLVMType)
  | [] => .ok ([], [])
  | v :: rest =>
    match (if v.typ == Typ.Unknown then ctx.infer_type v.init else .ok v.typ) with
    | .error e => .error e
    | .ok typ =>
      match ctx.resolve_type typ with
      | some llvm_typ =>
        match gen_struct_members ctx struct_name rest with
        | .error e => .error e
        | .ok (members, element_types) =>
          .ok (⟨v.name, typ, llvm_typ, v.is_const, v.public, v.init⟩ :: members,
               llvm_typ :: element_types)
      | none =>
        err v.span.start
          (.TypeError ("Unable to determine type of member " ++ v.name ++
            " of struct " ++ struct_name))

end Nomad

namespace Nomad

/-- Prologue of gen_function (codegen/statements.rs lines 96-106): the
entry basic block, builder positioning, the fresh stack frame and one
spill slot per argument. -/
def gen_function_entry (ctx : Context) (fi : FunctionInstance) (f : Function) : Context :=
  let (bb, ctx) := ctx.appendBB fi.function "entry"
  let ctx := ctx.positionAtEnd fi.function bb
  let ctx := ctx.push_stack_frame fi.function bb
  gen_function_args ctx (f.sig.args.zip fi.args)

/-- Epilogue of gen_function (codegen/statements.rs lines 112-117): emit
`ret void` exactly when the declared return type is Void, pop the frame,
re-position the builder at the caller frame's current block. -/
def gen_function_exit (ctx : Context) (f : Function) : Context :=
  let ctx := if f.sig.return_type == Typ.Void then ctx.emit .RetVoid else ctx
  let ctx := ctx.pop_stack_frame
  match ctx.frames.head? with
  | some fr => ctx.positionAtEnd fr.func fr.currentBB
  | none => ctx

mutual

/-- gen_function from src/codegen/statements.rs: redefinition check, then
the signature, the prologue, the body statements in order, and the
epilogue; `ret void` is emitted exactly when the declared return type is
Void, and nothing requires a non-Void body to end in a return. -/
def gen_function (fuel : Nat) (ctx : Context) (f : Function) : GR FunctionInstance :=
  match fuel with
  | 0 => none
  | fuel + 1 =>
    if ctx.has_function f.sig.name then
      gerr f.span.start (.RedefinitionOfFunction f.sig.name) ctx
    else
      gbind (gen_function_sig ctx f.sig f.public f.span) fun fi ctx =>
        let ctx := gen_function_entry ctx fi f
        gbind (gen_statements fuel ctx f.block.statements) fun _ ctx =>
          gok fi (gen_function_exit ctx f)
termination_by structural fuel

/-- Statement fold shared by gen_block and gen_function's body loop. -/
def gen_statements (fuel : Nat) (ctx : Context) (stmts : List Statement) : GR Unit :=
  match fuel with
  | 0 => none
  | fuel + 1 =>
    match stmts with
    | [] => gok () ctx
    | s :: rest =>
      gbind (gen_statement fuel ctx s) fun _ ctx =>
        gen_statements fuel ctx rest
termination_by structural fuel

/-- gen_block from src/codegen/statements.rs. -/
def gen_block (fuel : Nat) (ctx : Context) (b : Block) : GR Unit :=
  match fuel with
  | 0 => none
  | fuel + 1 => gen_statements fuel ctx b.statements
termination_by structural fuel

/-- Variable-list fold of the Statement::Variable arm of gen_statement. -/
def gen_variables (fuel : Nat) (ctx : Context) (vars : List Variable) : GR Unit :=
  match fuel with
  | 0 => none
  | fuel + 1 =>
    match vars with
    | [] => gok () ctx
    | v :: rest =>
      gbind (gen_variable fuel ctx v) fun _ ctx =>
        gen_variables fuel ctx rest
termination_by structural fuel

/-- gen_while from src/codegen/statements.rs: cond/body/done blocks with
the branch structure of the source. -/
def gen_while (fuel : Nat) (ctx : Context) (w : While) : GR Unit :=
  match fuel with
  | 0 => none
  | fuel + 1 =>
    let func := ctx.top_current_function
    let (loop_cond_bb, ctx) := ctx.appendBB func "loop_cond"
    let (loop_body_bb, ctx) := ctx.appendBB func "loop_body"
    let (post_loop_bb, ctx) := ctx.appendBB func "loop_done"
    let ctx := ctx.emit (.Br loop_cond_bb)
    let ctx := ctx.positionAtEnd func loop_cond_bb
    gbind (gen_expression fuel ctx w.cond) fun cond ctx =>
      let ctx := ctx.emit (.CondBr cond loop_body_bb post_loop_bb)
      let ctx := ctx.positionAtEnd func loop_body_bb
      let ctx := ctx.set_current_bb loop_body_bb
      gbind (gen_block fuel ctx w.block) fun _ ctx =>
        let ctx := ctx.emit (.Br loop_cond_bb)
        let ctx := ctx.positionAtEnd func post_loop_bb
        let ctx := ctx.set_current_bb post_loop_bb
        gok () ctx
termination_by structural fuel

/-- gen_if from src/codegen/statements.rs: then/else/after blocks,
conditional branch, unconditional joins, recursion for `else if`. -/
def gen_if (fuel : Nat) (ctx : Context) (i : If) : GR Unit :=
  match fuel with
  | 0 => none
  | fuel + 1 =>
    let func := ctx.top_current_function
    let (if_bb, ctx) := ctx.appendBB func "if_bb"
    let (after_if_bb, ctx) := ctx.appendBB func "after_if_bb"
    let (else_bb, ctx) := ctx.appendBB func "else_bb"
    gbind (gen_expression fuel ctx i.cond) fun cond ctx =>
      let ctx := ctx.emit (.CondBr cond if_bb else_bb)
      let ctx := ctx.positionAtEnd func if_bb
      gbind (gen_block fuel ctx i.if_block) fun _ ctx =>
        let ctx := ctx.emit (.Br after_if_bb)
        let elsePart : GR Unit :=
          match i.else_part with
          | .Block else_block =>
            let ctx := ctx.positionAtEnd func else_bb
            gbind (gen_block fuel ctx else_block) fun _ ctx =>
              gok () (ctx.emit (.Br after_if_bb))
          | .Empty =>
            let ctx := ctx.positionAtEnd func else_bb
            gok () (ctx.emit (.Br after_if_bb))
          | .If next_if =>
            let ctx := ctx.positionAtEnd func else_bb
            gbind (gen_if fuel ctx next_if) fun _ ctx =>
              gok () (ctx.emit (.Br after_if_bb))
        gbind elsePart fun _ ctx =>
          let ctx := ctx.positionAtEnd func after_if_bb
          let ctx := ctx.set_current_bb after_if_bb
          gok () ctx
termination_by structural fuel

/-- Method loop of gen_struct. -/
def gen_struct_methods (fuel : Nat) (ctx : Context) (fs : List Function) : GR Unit :=
  match fuel with
  | 0 => none
  | fuel + 1 =>
    match fs with
    | [] => gok () ctx
    | f :: rest =>
      gbind (gen_function fuel ctx f) fun func ctx =>
        gen_struct_methods fuel (ctx.add_function func) rest
termination_by structural fuel

/-- gen_struct from src/codegen/statements.rs: redefinition check, member
type lowering, registration of the lowered aggregate, then the methods. -/
def gen_struct (fuel : Nat) (ctx : Context) (s : Struct) : GR Unit :=
  match fuel with
  | 0 => none
  | fuel + 1 =>
    if (ctx.get_complex_type s.name).isSome then
      gerr s.span.start (.RedefinitionOfStruct s.name) ctx
    else
      match gen_struct_members ctx s.name s.vars with
      | .error e => some (.error e, ctx)
      | .ok (members, element_types) =>
        let struct_type : StructType :=
          ⟨s.name, .StructT element_types, members⟩
        let ctx := ctx.add_complex_type struct_type
        gen_struct_methods fuel ctx s.functions
termination_by structural fuel

/-- gen_statement from src/codegen/statements.rs. -/
def gen_statement (fuel : Nat) (ctx : Context) (stmt : Statement) : GR Unit :=
  match fuel with
  | 0 => none
  | fuel + 1 =>
    match stmt with
    | .Import i => gen_import ctx i
    | .Variable vars => gen_variables fuel ctx vars
    | .Function f =>
      gbind (gen_function fuel ctx f) fun fi ctx =>
        gok () (ctx.add_function fi)
    | .ExternalFunction ef =>
      gbind (gen_function_sig ctx ef.sig true ef.span) fun fi ctx =>
        gok () (ctx.add_function fi)
    | .While w => gen_while fuel ctx w
    | .If i => gen_if fuel ctx i
    | .Return r => gen_return fuel ctx r
    | .Struct s => gen_struct fuel ctx s
    | .Union u => gen_union ctx u
    | .Match m => gen_match ctx m
    | .Expression e =>
      gbind (gen_expression fuel ctx e) fun _ ctx => gok () ctx
termination_by structural fuel

end

end Nomad

namespace Nomad

namespace Builtin

/-- Types of the newer commit codegen/builtin.rs belongs to, as far as the
builtin table needs them.  Slice is the uniform sequence type of the spec
(§3.3); the remaining variants are primitives. -/
inductive BType where
  | Void
  | VoidPtr
  | Int
  | Char
  | Slice (element : BType)
deriving DecidableEq, Repr

/-- Modelled from the spec: string_type() is defined in code absent from
the snapshot; per §3.3 and the glossary the string type is a slice of
characters (`Slice = {data pointer, length}`), which is what §6.3 has
`concat` operate on. -/
def string_type : BType := .Slice .Char

/-- Argument passing modes (spec §3.3): ByValue for primitives and
pointer-sized types, ByPtr for aggregates. -/
inductive ArgumentPassingMode where
  | ByValue
  | ByPtr
deriving DecidableEq, Repr

/-- Deterministic passing-mode rule (spec §3.3/§9): aggregates (slices) go
by pointer, everything else by value. -/
def BType.pass_by_value : BType → Bool
  | .Slice _ => false
  | _ => true

/-- Function argument of the newer commit: name, type, passing mode. -/
structure BArgument where
  name : String
  typ : BType
  mode : ArgumentPassingMode
deriving DecidableEq, Repr

/-- Argument::new(name, typ, span): the passing mode is derived from the
type (spec §9: derived from type once, carried on the AST). -/
def BArgument.new (name : String) (typ : BType) : BArgument :=
  ⟨name, typ, if typ.pass_by_value then .ByValue else .ByPtr⟩

/-- Argument::with_passing_mode(name, typ, mode). -/
def BArgument.with_passing_mode (name : String) (typ : BType)
    (mode : ArgumentPassingMode) : BArgument :=
  ⟨name, typ, mode⟩

/-- Function signature of the newer commit. -/
structure BFunctionSignature where
  name : String
  return_type : BType
  args : List BArgument
deriving DecidableEq, Repr

/-- sig(name, ret, args, span) helper. -/
def sig (name : String) (ret : BType) (args : List BArgument) :
    BFunctionSignature :=
  ⟨name, ret, args⟩

/-- Modelled from the spec (§4.5): the builtin function table of the
codegen context (context.rs of this commit is absent from the snapshot). -/
structure BContext where
  builtins : List BFunctionSignature
deriving DecidableEq, Repr

/-- ctx.add_builtin(..): register one builtin function instance. -/
def BContext.add_builtin (ctx : BContext) (s : BFunctionSignature) : BContext :=
  ⟨ctx.builtins ++ [s]⟩

/-- add_builtin_functions from src/codegen/builtin.rs: the four runtime
functions, in source order, with the source's types and passing modes;
concat's slice result is returned through an additional pointer argument
(the comment on string_type() in the source). -/
def add_builtin_functions (ctx : BContext) : BContext :=
  let functions : List BFunctionSignature := [
    sig "arc_alloc" .VoidPtr [BArgument.new "size" .Int],
    sig "arc_inc_ref" .Void [BArgument.new "ptr" .VoidPtr],
    sig "arc_dec_ref" .Void [BArgument.new "ptr" .VoidPtr],
    sig "concat" string_type [
      BArgument.with_passing_mode "a" string_type .ByPtr,
      BArgument.with_passing_mode "b" string_type .ByPtr,
      BArgument.with_passing_mode "element_len" .Int .ByValue
    ]
  ]
  functions.foldl (fun ctx s => ctx.add_builtin s) ctx

/-- Machine-level C ABI types on the 64-bit target: integer word, pointer,
or no value. -/
inductive MachTy where
  | I64
  | PtrT
  | VoidM
deriving DecidableEq, Repr

/-- By-value machine lowering of a builtin type: the compiler's int and C's
size_t are both 64-bit words, pointers are pointers, Void carries nothing.
Slices have no by-value lowering (they always travel by pointer). -/
def BType.mach : BType → MachTy
  | .Int => .I64
  | .Char => .I64
  | .VoidPtr => .PtrT
  | .Void => .VoidM
  | .Slice _ => .PtrT

/-- A C-level prototype: return machine type and argument machine types. -/
structure CAbiSig where
  name : String
  ret : MachTy
  args : List MachTy
deriving DecidableEq, Repr

/-- C-level lowering of a builtin signature: by-pointer arguments become
pointers, and a by-pointer result becomes a trailing pointer argument with
a void C return (the source's comment: `void concat(array, array,
element_len, array)`). -/
def abi_of (s : BFunctionSignature) : CAbiSig :=
  let argTys := s.args.map fun a =>
    match a.mode with
    | .ByValue => a.typ.mach
    | .ByPtr => MachTy.PtrT
  if s.return_type.pass_by_value then
    ⟨s.name, s.return_type.mach, argTys⟩
  else
    ⟨s.name, .VoidM, argTys ++ [.PtrT]⟩

/-- The runtime ABI exactly as the spec's table (§6.3) words it: `void*
arc_alloc(size_t)`, `void arc_inc_ref(void*)`, `void arc_dec_ref(void*)`,
and concat over two slice pointers and an element length, returning its
slice through an extra pointer argument. -/
def runtime_abi : List CAbiSig := [
  ⟨"arc_alloc", .PtrT, [.I64]⟩,
  ⟨"arc_inc_ref", .VoidM, [.PtrT]⟩,
  ⟨"arc_dec_ref", .VoidM, [.PtrT]⟩,
  ⟨"concat", .VoidM, [.PtrT, .PtrT, .I64, .PtrT]⟩
]

end Builtin

end Nomad

namespace Nomad

/-- One output line of print_message's source-context rendering: either a
numbered source line, or a caret line made of `pad` spaces followed by
`count` carets (after the fixed `     | ` gutter). -/
inductive OutLine where
  | Source (idx : Nat) (text : String)
  | Carets (pad : Nat) (count : Nat)
deriving DecidableEq, Repr

/-- Caret rendering of the print_message loop body (the three caret
branches, compileerror.rs lines 96-112): on the span's first line the
carets sit after span.start.offset - 1 columns of padding and cover the
span's columns up to the span end or the end of the line; on the span's
last line they cover the first span.end.offset columns; interior non-empty
span lines are fully underlined; other lines get no carets. -/
def caretsFor (span : Span) (line_idx : Nat) (line : String) : List OutLine :=
  if line_idx == span.start.line then
    let e := if line_idx == span.stop.line then span.stop.offset else line.length
    [.Carets (span.start.offset - 1) (e - span.start.offset + 1)]
  else if line_idx == span.stop.line then
    [.Carets 0 span.stop.offset]
  else if line_idx > span.start.line && line_idx < span.stop.line && !line.isEmpty then
    [.Carets 0 line.length]
  else []

/-- Per-line rendering of the print_message loop body (compileerror.rs
lines 93-112): the numbered source line, then its caret line when the line
intersects the span. -/
def renderLine (span : Span) (line_idx : Nat) (line : String) : List OutLine :=
  [.Source line_idx line] ++ caretsFor span line_idx line

/-- The print_message line loop (compileerror.rs lines 91-115): lines are
1-indexed by `idx + 1`, each is rendered, and the loop stops after the line
`span.end.line + 3`. -/
def print_loop (span : Span) : Nat → List String → List OutLine
  | _, [] => []
  | idx, l :: ls =>
    let line_idx := idx + 1
    renderLine span line_idx l ++
      (if line_idx ≥ span.stop.line + 3 then [] else print_loop span (idx + 1) ls)

/-- print_message from src/compileerror.rs, its source-context body (after
the `span: msg` header, when the file opens): skip to four lines before the
span (or the file start), then run the line loop. -/
def print_message_body (span : Span) (lines : List String) : List OutLine :=
  let start_line := if span.start.line ≥ 4 then span.start.line - 4 else 0
  print_loop span start_line (lines.drop start_line)

/-- Indices of the source lines actually printed. -/
def sourceIndices (out : List OutLine) : List Nat :=
  out.filterMap fun o =>
    match o with
    | .Source i _ => some i
    | _ => none

/-- The output element immediately following the printed source line of
index ℓ, if any: the caret line under line ℓ when one is printed. -/
def afterSource (ℓ : Nat) : List OutLine → Option OutLine
  | [] => none
  | .Source i _ :: rest => if i = ℓ then rest.head? else afterSource ℓ rest
  | .Carets _ _ :: rest => afterSource ℓ rest

end Nomad

namespace Nomad

/-- Single-line token constructor for concrete inputs. -/
def tokAt (k : TokenKind) (line c1 c2 : Nat) : Token :=
  ⟨k, ⟨⟨line, c1⟩, ⟨line, c2⟩⟩⟩

/-- A token queue over a fresh token list. -/
def tq_of (ts : List Token) : TokenQueue := ⟨ts, Pos.zero⟩

/-- Token stream of `a * b + c`. -/
def tq_mul_add : TokenQueue := tq_of [
  tokAt (.Identifier "a") 1 1 1, tokAt (.Operator .Mul) 1 3 3,
  tokAt (.Identifier "b") 1 5 5, tokAt (.Operator .Add) 1 7 7,
  tokAt (.Identifier "c") 1 9 9, tokAt .EOF 1 10 10]

/-- Token stream of `a - b - c`. -/
def tq_sub_sub : TokenQueue := tq_of [
  tokAt (.Identifier "a") 1 1 1, tokAt (.Operator .Sub) 1 3 3,
  tokAt (.Identifier "b") 1 5 5, tokAt (.Operator .Sub) 1 7 7,
  tokAt (.Identifier "c") 1 9 9, tokAt .EOF 1 10 10]

/-- Token stream of `(b)++`. -/
def tq_paren_incr : TokenQueue := tq_of [
  tokAt .OpenParen 1 1 1, tokAt (.Identifier "b") 1 2 2,
  tokAt .CloseParen 1 3 3, tokAt (.Operator .Increment) 1 4 5,
  tokAt .EOF 1 6 6]

/-- Token stream of `x++`. -/
def tq_ident_incr : TokenQueue := tq_of [
  tokAt (.Identifier "x") 1 1 1, tokAt (.Operator .Increment) 1 2 3,
  tokAt .EOF 1 4 4]

/-- Token stream of `x--`. -/
def tq_ident_decr : TokenQueue := tq_of [
  tokAt (.Identifier "x") 1 1 1, tokAt (.Operator .Decrement) 1 2 3,
  tokAt .EOF 1 4 4]

/-- Token stream of `++x`. -/
def tq_pre_incr : TokenQueue := tq_of [
  tokAt (.Operator .Increment) 1 1 2, tokAt (.Identifier "x") 1 3 3,
  tokAt .EOF 1 4 4]

/-- Token stream of `--x`. -/
def tq_pre_decr : TokenQueue := tq_of [
  tokAt (.Operator .Decrement) 1 1 2, tokAt (.Identifier "x") 1 3 3,
  tokAt .EOF 1 4 4]

/-- Token stream of `-5`. -/
def tq_neg_five : TokenQueue := tq_of [
  tokAt (.Operator .Sub) 1 1 1, tokAt (.Number "5") 1 2 2,
  tokAt .EOF 1 3 3]

/-- Token stream of `(7, 8,)` (call arguments with a trailing comma). -/
def tq_args_trailing : TokenQueue := tq_of [
  tokAt .OpenParen 1 1 1, tokAt (.Number "7") 1 2 2, tokAt .Comma 1 3 3,
  tokAt (.Number "8") 1 5 5, tokAt .Comma 1 6 6, tokAt .CloseParen 1 7 7,
  tokAt .EOF 1 8 8]

/-- Token stream of `(7, 8)` (call arguments without a trailing comma). -/
def tq_args_plain : TokenQueue := tq_of [
  tokAt .OpenParen 1 1 1, tokAt (.Number "7") 1 2 2, tokAt .Comma 1 3 3,
  tokAt (.Number "8") 1 5 5, tokAt .CloseParen 1 6 6, tokAt .EOF 1 7 7]

/-- Token stream of `{7, 8,}` (construction parameters with a trailing
comma). -/
def tq_params_trailing : TokenQueue := tq_of [
  tokAt .OpenCurly 1 1 1, tokAt (.Number "7") 1 2 2, tokAt .Comma 1 3 3,
  tokAt (.Number "8") 1 5 5, tokAt .Comma 1 6 6, tokAt .CloseCurly 1 7 7,
  tokAt .EOF 1 8 8]

/-- Token stream of `{7, 8}` (construction parameters without a trailing
comma). -/
def tq_params_plain : TokenQueue := tq_of [
  tokAt .OpenCurly 1 1 1, tokAt (.Number "7") 1 2 2, tokAt .Comma 1 3 3,
  tokAt (.Number "8") 1 5 5, tokAt .CloseCurly 1 6 6, tokAt .EOF 1 7 7]

/-- Token stream of `f(self): x` (a method signature whose only argument is
a leading `self`, with a single-line body). -/
def tq_func_self_first : TokenQueue := tq_of [
  tokAt (.Identifier "f") 1 1 1, tokAt .OpenParen 1 2 2,
  tokAt (.Identifier "self") 1 3 6, tokAt .CloseParen 1 7 7,
  tokAt .Colon 1 8 8, tokAt (.Identifier "x") 1 10 10, tokAt .EOF 1 11 11]

/-- Token stream of `f(x: int, self): x` (a signature with `self` in second
position). -/
def tq_func_self_late : TokenQueue := tq_of [
  tokAt (.Identifier "f") 1 1 1, tokAt .OpenParen 1 2 2,
  tokAt (.Identifier "x") 1 3 3, tokAt .Colon 1 4 4,
  tokAt (.Identifier "int") 1 6 8, tokAt .Comma 1 9 9,
  tokAt (.Identifier "self") 1 11 14, tokAt .CloseParen 1 15 15,
  tokAt .Colon 1 16 16, tokAt (.Identifier "x") 1 18 18, tokAt .EOF 1 19 19]

/-- Call-argument projection of a parsed call. -/
def callArgsOf (r : PR (String × List Expression × Span)) :
    Option (Except CompileError (List Expression)) :=
  r.map fun x =>
    match x with
    | .ok (c, _) => .ok c.2.1
    | .error e => .error e

/-- Parameter projection of a parsed object construction. -/
def objParamsOf (r : PR Expression) :
    Option (Except CompileError (List Expression)) :=
  r.map fun x =>
    match x with
    | .ok (.ObjectConstruction _ params _, _) => .ok params
    | .ok (e, _) => .ok [e]
    | .error e => .error e

end Nomad

namespace Nomad

/-- Does a parse result hold a compound-assignment node. -/
def isAssignmentResult (r : PR Expression) : Bool :=
  match r with
  | some (.ok (.Assignment _ _ _ _, _)) => true
  | _ => false

/-- Did a codegen step succeed. -/
def isOkGR {α : Type} (r : GR α) : Bool :=
  match r with
  | some (.ok _, _) => true
  | _ => false

/-- The IR module a codegen step left behind. -/
def moduleOfGR {α : Type} (r : GR α) : Option IRModule :=
  match r with
  | some (_, ctx) => some ctx.module
  | none => none

/-- Instructions of the basic block a builder position points at. -/
def instrsIn (m : IRModule) : Option (String × Nat) → List Instr
  | none => []
  | some (fn, bb) =>
    match m.functions.find? (fun f => f.name == fn) with
    | some f =>
      match f.blocks.find? (fun b => b.id == bb) with
      | some b => b.instrs
      | none => []
    | none => []

/-- The builder points at an existing basic block. -/
def builder_ok (ctx : Context) : Bool :=
  match ctx.builder with
  | none => false
  | some (fn, bb) =>
    match ctx.module.functions.find? (fun f => f.name == fn) with
    | some f => f.blocks.any (fun b => b.id == bb)
    | none => false

/-- A fresh codegen context. -/
def ctx_empty : Context := ⟨⟨[]⟩, none, 0, []⟩

/-- A function declared to return int whose body has no return statement. -/
def fn_int_noret : Function :=
  Function.new "f" Typ.Int [] false (Block.new []) ⟨⟨1,1⟩,⟨1,1⟩⟩

/-- A Void function with an empty body. -/
def fn_void_empty : Function :=
  Function.new "g" Typ.Void [] false (Block.new []) ⟨⟨1,1⟩,⟨1,1⟩⟩

/-- The function instance gen_function_sig builds for fn_void_empty. -/
def fi_void : FunctionInstance :=
  ⟨"g", [], .VoidT, "g", ⟨"g", Typ.Void, []⟩, false⟩

/-- Context after fn_void_empty's signature has been emitted. -/
def ctxSig_void : Context := ctx_empty.addIRFunction "g" (.FuncT .VoidT [])

/-- Context after fn_void_empty's prologue (and its empty body). -/
def ctxBody_void : Context := gen_function_entry ctxSig_void fi_void fn_void_empty

/-- A registered function instance named f0. -/
def fi_demo : FunctionInstance :=
  ⟨"f0", [], .VoidT, "f0", ⟨"f0", Typ.Void, []⟩, false⟩

/-- A registered struct type named S0. -/
def st_demo : StructType := ⟨"S0", .StructT [], []⟩

/-- A context whose single frame already binds the variable x0, the
function f0 and the struct S0. -/
def ctx_demo : Context :=
  ⟨⟨[]⟩, none, 1,
   [⟨"main", 0, [("x0", ⟨⟨0, .Ptr .I64⟩, false, Typ.Int⟩)], [fi_demo], [st_demo]⟩]⟩

/-- A declaration of the already-bound variable x0. -/
def var_demo : Variable := ⟨"x0", Typ.Int, false, false, .IntLiteral Span.zero 1, Span.zero⟩

/-- A declaration of the already-registered function f0. -/
def fn_demo : Function := Function.new "f0" Typ.Void [] false (Block.new []) Span.zero

/-- A declaration of the already-registered struct S0. -/
def struct_demo : Struct := Struct.new "S0" false Span.zero

end Nomad

namespace Nomad

/-- A digit-only character list never contains a non-digit character. -/
theorem not_mem_of_all_digits (l : List Char) (h : l.all Char.isDigit = true)
    (c : Char) (hc : c.isDigit = false) : ¬(c ∈ l) := fun hmem => by
  have := List.all_eq_true.mp h c hmem
  rw [hc] at this
  exact Bool.false_ne_true this

/-- Appending one basic-block instruction through updateBlock: when some
block of the list has the builder's id, the found block's instructions
grow by exactly that instruction. -/
theorem blocks_update_append (bb : Nat) (i : Instr) :
    ∀ bs : List BasicBlock, bs.any (fun b => b.id == bb) = true →
      (match (bs.map (updateBlock bb i)).find? (fun b => b.id == bb) with
        | some b => b.instrs
        | none => ([] : List Instr)) =
      (match bs.find? (fun b => b.id == bb) with
        | some b => b.instrs
        | none => []) ++ [i] := by
  intro bs
  induction bs with
  | nil => intro h; simp at h
  | cons b bs ih =>
    intro h
    cases hid : (b.id == bb) with
    | true =>
      have hup : (updateBlock bb i b).id = b.id := by
        unfold updateBlock
        split <;> rfl
      simp only [List.map_cons, List.find?_cons, hup, hid]
      unfold updateBlock
      rw [if_pos hid]
    | false =>
      have hup : (updateBlock bb i b).id = b.id := by
        unfold updateBlock
        split <;> rfl
      have hany : bs.any (fun b => b.id == bb) = true := by
        simpa [List.any_cons, hid] using h
      simp only [List.map_cons, List.find?_cons, hup, hid]
      exact ih hany

/-- Emitting an instruction appends it to the block the builder points at. -/
theorem instrsIn_emit (ctx : Context) (i : Instr) (h : builder_ok ctx = true) :
    instrsIn (ctx.emit i).module ctx.builder =
      instrsIn ctx.module ctx.builder ++ [i] := by
  cases hb : ctx.builder with
  | none => rw [builder_ok, hb] at h; exact absurd h (by simp)
  | some pr =>
    obtain ⟨fn, bb⟩ := pr
    rw [builder_ok, hb] at h
    dsimp only at h
    simp only [Context.emit, hb]
    rw [instrsIn, instrsIn]
    dsimp only
    revert h
    induction ctx.module.functions with
    | nil => intro h; simp at h
    | cons f fs ih =>
      intro h
      cases hname : (f.name == fn) with
      | true =>
        simp only [List.find?_cons, hname] at h
        have hupname : (updateFunction fn bb i f).name = f.name := by
          unfold updateFunction
          split <;> rfl
        simp only [List.map_cons, List.find?_cons, hupname, hname]
        unfold updateFunction
        rw [if_pos hname]
        exact blocks_update_append bb i f.blocks h
      | false =>
        simp only [List.find?_cons, hname] at h
        have hupname : (updateFunction fn bb i f).name = f.name := by
          unfold updateFunction
          split <;> rfl
        simp only [List.map_cons, List.find?_cons, hupname, hname]
        exact ih h

/-- For a Void function the epilogue's module is the module after the
`ret void` emission. -/
theorem module_exit_void (ctxBody : Context) (f : Function)
    (hv : f.sig.return_type = Typ.Void) :
    (gen_function_exit ctxBody f).module = (ctxBody.emit .RetVoid).module := by
  unfold gen_function_exit
  rw [hv]
  simp only [beq_self_eq_true, if_true]
  cases h : (ctxBody.emit .RetVoid).pop_stack_frame.frames.head? <;>
    simp [h, Context.pop_stack_frame, Context.positionAtEnd]

/-- The printed source indices distribute over list append. -/
theorem sourceIndices_append (a b : List OutLine) :
    sourceIndices (a ++ b) = sourceIndices a ++ sourceIndices b := by
  simp [sourceIndices, List.filterMap_append]

/-- Each rendered line contributes exactly its own source index. -/
theorem sourceIndices_renderLine (span : Span) (i : Nat) (l : String) :
    sourceIndices (renderLine span i l) = [i] := by
  unfold renderLine caretsFor sourceIndices
  split_ifs <;> rfl

/-- The print loop renders the consecutive line indices from `idx + 1` up
to line `span.end.line + 3` or the end of the file. -/
theorem print_loop_indices (span : Span) :
    ∀ (ls : List String) (idx : Nat), idx + 1 ≤ span.stop.line + 3 →
      sourceIndices (print_loop span idx ls) =
        List.range' (idx + 1) (min ls.length (span.stop.line + 3 - idx)) := by
  intro ls
  induction ls with
  | nil => intro idx h; simp [print_loop, sourceIndices]
  | cons l ls ih =>
    intro idx h
    rw [print_loop, sourceIndices_append, sourceIndices_renderLine]
    by_cases hstop : idx + 1 ≥ span.stop.line + 3
    · have hmin : min (l :: ls).length (span.stop.line + 3 - idx) = 1 := by
        simp only [List.length_cons]
        omega
      rw [hmin]
      simp [hstop, sourceIndices, List.range']
    · have hmin : min (l :: ls).length (span.stop.line + 3 - idx) =
          min ls.length (span.stop.line + 3 - (idx + 1)) + 1 := by
        simp only [List.length_cons]
        omega
      rw [hmin, List.range'_succ]
      simp only [if_neg hstop]
      rw [ih (idx + 1) (by omega)]
      rfl

/-- A caret line, when rendered, is a single Carets element. -/
theorem caretsFor_shape (span : Span) (ℓ : Nat) (l : String) :
    caretsFor span ℓ l = [] ∨ ∃ pad cnt, caretsFor span ℓ l = [.Carets pad cnt] := by
  unfold caretsFor
  split_ifs <;> simp

/-- afterSource skips a rendered line of a different index. -/
theorem afterSource_renderLine_skip (span : Span) (ℓ i : Nat) (l : String)
    (rest : List OutLine) (h : i ≠ ℓ) :
    afterSource ℓ (renderLine span i l ++ rest) = afterSource ℓ rest := by
  unfold renderLine
  rcases caretsFor_shape span i l with hc | ⟨pad, cnt, hc⟩ <;>
    simp [hc, afterSource, h]

/-- afterSource finds the caret line of its own rendered line. -/
theorem afterSource_renderLine_found (span : Span) (ℓ : Nat) (l : String)
    (rest : List OutLine) (pad cnt : Nat)
    (hc : caretsFor span ℓ l = [.Carets pad cnt]) :
    afterSource ℓ (renderLine span ℓ l ++ rest) = some (.Carets pad cnt) := by
  unfold renderLine
  simp [hc, afterSource]

/-- Through the whole print loop, the element right after the printed
source line ℓ is that line's caret line, whenever one is rendered. -/
theorem afterSource_print_loop (span : Span) :
    ∀ (ls : List String) (idx ℓ : Nat) (text : String),
      idx + 1 ≤ span.stop.line + 3 →
      idx < ℓ → ℓ ≤ span.stop.line + 3 →
      ls[ℓ - idx - 1]? = some text →
      ∀ pad cnt, caretsFor span ℓ text = [.Carets pad cnt] →
      afterSource ℓ (print_loop span idx ls) = some (.Carets pad cnt) := by
  intro ls
  induction ls with
  | nil =>
    intro idx ℓ text h hlo hhi hget pad cnt hc
    simp at hget
  | cons l ls ih =>
    intro idx ℓ text h hlo hhi hget pad cnt hc
    rw [print_loop]
    by_cases heq : ℓ = idx + 1
    · subst heq
      have hidx0 : idx + 1 - idx - 1 = 0 := by omega
      rw [hidx0] at hget
      simp only [List.getElem?_cons_zero, Option.some.injEq] at hget
      subst hget
      exact afterSource_renderLine_found span _ l _ pad cnt hc
    · have hlt : idx + 1 < ℓ := by omega
      have hshift : ℓ - idx - 1 = (ℓ - (idx + 1) - 1) + 1 := by omega
      rw [hshift] at hget
      simp only [List.getElem?_cons_succ] at hget
      rw [afterSource_renderLine_skip span ℓ (idx + 1) l _ (by omega)]
      rw [if_neg (by omega : ¬(idx + 1 ≥ span.stop.line + 3))]
      exact ih (idx + 1) ℓ text (by omega) (by omega) hhi hget pad cnt hc

/-- The caret line printed under any span line ℓ of the error printer's
output. -/
theorem afterSource_print_message (span : Span) (lines : List String)
    (h1 : 1 ≤ span.start.line) (h2 : span.start.line ≤ span.stop.line) :
    ∀ (ℓ : Nat) (text : String), span.start.line ≤ ℓ → ℓ ≤ span.stop.line →
      lines[ℓ - 1]? = some text →
      ∀ pad cnt, caretsFor span ℓ text = [.Carets pad cnt] →
      afterSource ℓ (print_message_body span lines) = some (.Carets pad cnt) := by
  intro ℓ text hl hu htext pad cnt hc
  have key : ∀ s : Nat, s + 1 ≤ span.start.line →
      afterSource ℓ (print_loop span s (lines.drop s)) = some (.Carets pad cnt) := by
    intro s hs
    refine afterSource_print_loop span (lines.drop s) s ℓ text ?_ ?_ ?_ ?_ pad cnt hc
    · omega
    · omega
    · omega
    · rw [List.getElem?_drop]
      have harith : s + (ℓ - s - 1) = ℓ - 1 := by omega
      rw [harith]
      exact htext
  unfold print_message_body
  exact key _ (by split <;> omega)

/-- Counting the range elements below a bound. -/
theorem length_filter_lt_range' :
    ∀ (k a m : Nat),
      ((List.range' a k).filter (fun i => decide (i < m))).length = min k (m - a) := by
  intro k
  induction k with
  | zero => intro a m; simp
  | succ k ih =>
    intro a m
    rw [List.range'_succ, List.filter_cons]
    by_cases h : a < m
    · simp [h, ih (a + 1) m]
      omega
    · simp [h, ih (a + 1) m]
      omega

/-- Counting the range elements above a bound. -/
theorem length_filter_gt_range' :
    ∀ (k a m : Nat),
      ((List.range' a k).filter (fun i => decide (m < i))).length =
        k - min k (m + 1 - a) := by
  intro k
  induction k with
  | zero => intro a m; simp
  | succ k ih =>
    intro a m
    rw [List.range'_succ, List.filter_cons]
    by_cases h : m < a
    · simp [h, ih (a + 1) m]
      omega
    · simp [h, ih (a + 1) m]
      omega

end Nomad

namespace Nomad

/-- C1: in parse_binary_op_rhs, when the recursively parsed right-hand side
is a binary operation whose operator's precedence is at most the current
operator's precedence, the tree is rotated so left-associativity is
preserved; concretely `a * b + c` parses to BinOp(+, BinOp(*, a, b), c) and
`a - b - c` parses to BinOp(-, BinOp(-, a, b), c). -/
theorem C1_left_associative_rotation :
    (∀ (prec : Nat) (op rop : Operator) (lhs l r : Expression) (s : Span),
      rop.precedence ≤ prec →
      combine_rhs prec op lhs (.BinaryOp rop l r s) =
        .BinaryOp rop (.BinaryOp op lhs l (Span.merge lhs.span l.span)) r
          (Span.merge (Span.merge lhs.span l.span) r.span)) ∧
    parse_expression 20 tq_mul_add 0 =
      pok (bin_op .Add
        (bin_op .Mul (name_ref "a" ⟨⟨1,1⟩,⟨1,1⟩⟩) (name_ref "b" ⟨⟨1,5⟩,⟨1,5⟩⟩)
          ⟨⟨1,1⟩,⟨1,5⟩⟩)
        (name_ref "c" ⟨⟨1,9⟩,⟨1,9⟩⟩) ⟨⟨1,1⟩,⟨1,9⟩⟩)
        ⟨[tokAt .EOF 1 10 10], ⟨1,9⟩⟩ ∧
    parse_expression 20 tq_sub_sub 0 =
      pok (bin_op .Sub
        (bin_op .Sub (name_ref "a" ⟨⟨1,1⟩,⟨1,1⟩⟩) (name_ref "b" ⟨⟨1,5⟩,⟨1,5⟩⟩)
          ⟨⟨1,1⟩,⟨1,5⟩⟩)
        (name_ref "c" ⟨⟨1,9⟩,⟨1,9⟩⟩) ⟨⟨1,1⟩,⟨1,9⟩⟩)
        ⟨[tokAt .EOF 1 10 10], ⟨1,9⟩⟩ := by
  refine ⟨fun prec op rop lhs l r s h => ?_, rfl, rfl⟩
  simp [combine_rhs, bin_op2, bin_op, Expression.span, h]

/-- Witness for C1 at a concrete rotation: `+` with an equal-precedence `-`
right-hand side. -/
theorem C1_left_associative_rotation_witness :
    Operator.precedence .Sub ≤ 1800 ∧
    combine_rhs 1800 .Add (name_ref "x" Span.zero)
        (.BinaryOp .Sub (name_ref "y" Span.zero) (name_ref "z" Span.zero) Span.zero) =
      .BinaryOp .Sub
        (.BinaryOp .Add (name_ref "x" Span.zero) (name_ref "y" Span.zero) Span.zero)
        (name_ref "z" Span.zero) Span.zero :=
  ⟨by decide,
   C1_left_associative_rotation.1 1800 .Add .Sub (name_ref "x" Span.zero)
     (name_ref "y" Span.zero) (name_ref "z" Span.zero) Span.zero (by decide)⟩

/-- C3 counterexample: the lexeme `1E5` carries an exponent marker of the
lexer's `[eE]` form and parses as a floating-point value, yet parse_number
classifies it as an integer and fails with InvalidInteger, because only
`.` and lowercase `e` trigger the float branch. -/
theorem C3_uppercase_exponent_counterexample :
    ("1E5".data.contains 'E') = true ∧
    parse_f64_ok "1E5" = true ∧
    parse_number "1E5" Span.zero = .error ⟨Pos.zero, .InvalidInteger⟩ :=
  ⟨by decide, by decide, rfl⟩

/-- C3 amended: parse_number yields a FloatLiteral exactly when the lexeme
contains `.` or a lowercase `e`; a float-classified lexeme Rust's f64
parser rejects fails with InvalidFloatingPoint, and an integer-classified
lexeme Rust's u64 parser rejects fails with InvalidInteger. -/
theorem C3_number_classification (num : String) (span : Span) :
    ((num.data.contains '.' || num.data.contains 'e') = true →
      (parse_f64_ok num = true →
        parse_number num span = .ok (.FloatLiteral span num)) ∧
      (parse_f64_ok num = false →
        parse_number num span = .error ⟨span.start, .InvalidFloatingPoint⟩)) ∧
    ((num.data.contains '.' || num.data.contains 'e') = false →
      (∀ v, parse_u64 num = some v →
        parse_number num span = .ok (.IntLiteral span v)) ∧
      (parse_u64 num = none →
        parse_number num span = .error ⟨span.start, .InvalidInteger⟩)) := by
  refine ⟨fun h => ⟨fun hf => ?_, fun hf => ?_⟩,
          fun h => ⟨fun v hv => ?_, fun hv => ?_⟩⟩
  · unfold parse_number
    rw [h, hf]
    simp
  · unfold parse_number
    rw [h, hf]
    simp [err]
  · unfold parse_number
    rw [h, hv]
    simp
  · unfold parse_number
    rw [h, hv]
    simp [err]

/-- Witness for C3 at the four concrete classification outcomes. -/
theorem C3_number_classification_witness :
    parse_number "1.5" Span.zero = .ok (.FloatLiteral Span.zero "1.5") ∧
    parse_number "1e" Span.zero = .error ⟨Pos.zero, .InvalidFloatingPoint⟩ ∧
    parse_number "42" Span.zero = .ok (.IntLiteral Span.zero 42) ∧
    parse_number "99999999999999999999999" Span.zero =
      .error ⟨Pos.zero, .InvalidInteger⟩ :=
  ⟨((C3_number_classification "1.5" Span.zero).1 (by decide)).1 (by decide),
   ((C3_number_classification "1e" Span.zero).1 (by decide)).2 (by decide),
   ((C3_number_classification "42" Span.zero).2 (by decide)).1 42 (by decide),
   ((C3_number_classification "99999999999999999999999" Span.zero).2
     (by decide)).2 (by decide)⟩

/-- C9: a digit-only number lexeme parses to an IntLiteral holding its
exact value precisely when the value fits in an unsigned 64-bit integer,
larger values fail with InvalidInteger, and a negative literal arises only
as unary minus applied to a non-negative literal (`-5` parses as
UnaryOp(-, IntLiteral 5)). -/
theorem C9_integer_range (num : String) (span : Span)
    (h1 : num.data ≠ []) (h2 : num.data.all Char.isDigit = true) :
    (digitsToNat num.data < 2 ^ 64 →
      parse_number num span = .ok (.IntLiteral span (digitsToNat num.data))) ∧
    (2 ^ 64 ≤ digitsToNat num.data →
      parse_number num span = .error ⟨span.start, .InvalidInteger⟩) ∧
    parse_expression 20 tq_neg_five 0 =
      pok (unary_op .Sub (.IntLiteral ⟨⟨1,2⟩,⟨1,2⟩⟩ 5) ⟨⟨1,1⟩,⟨1,2⟩⟩)
        ⟨[tokAt .EOF 1 3 3], ⟨1,2⟩⟩ := by
  have hc1 : ¬('.' ∈ num.data) := not_mem_of_all_digits _ h2 _ (by decide)
  have hc2 : ¬('e' ∈ num.data) := not_mem_of_all_digits _ h2 _ (by decide)
  have hu : parse_u64 num =
      (if digitsToNat num.data < 2 ^ 64 then some (digitsToNat num.data) else none) := by
    unfold parse_u64
    cases hd : num.data with
    | nil => exact absurd hd h1
    | cons c cs =>
      have hcd : c.isDigit = true := List.all_eq_true.mp h2 c (by simp [hd])
      have hcp : ¬(c = '+') := by
        intro hcontr
        rw [hcontr] at hcd
        simp [Char.isDigit] at hcd
      have hall : (c :: cs).all Char.isDigit = true := hd ▸ h2
      have hm : (match c :: cs with
          | '+' :: rest => rest
          | x => c :: cs) = c :: cs := by
        split
        · rename_i rest heq
          rw [List.cons.injEq] at heq
          exact absurd heq.1 hcp
        · rfl
      simp [hm, hall]
  refine ⟨fun hlt => ?_, fun hge => ?_, rfl⟩
  · have hlt2 : digitsToNat num.data < 18446744073709551616 := hlt
    simp [parse_number, hc1, hc2, hu, hlt2, err]
  · have hnlt : ¬(digitsToNat num.data < 18446744073709551616) := by
      intro hcontr
      exact absurd hge (by omega)
    simp [parse_number, hc1, hc2, hu, hnlt, err]

/-- Witness for C9 at `5` (fits) and `18446744073709551616` (2^64, does
not fit). -/
theorem C9_integer_range_witness :
    parse_number "5" Span.zero = .ok (.IntLiteral Span.zero 5) ∧
    parse_number "18446744073709551616" Span.zero =
      .error ⟨Pos.zero, .InvalidInteger⟩ :=
  ⟨(C9_integer_range "5" Span.zero (by decide) (by decide)).1 (by decide),
   (C9_integer_range "18446744073709551616" Span.zero (by decide)
     (by decide)).2.1 (by decide)⟩

end Nomad

namespace Nomad

/-- C7 counterexample: the postfix `++` after the parenthesized expression
`(b)` does not become a compound assignment; parse_expression produces a
postfix unary-operator node instead. -/
theorem C7_postfix_on_parenthesized :
    isAssignmentResult (parse_expression 20 tq_paren_incr 0) = false ∧
    parse_expression 20 tq_paren_incr 0 =
      pok (pf_unary_op .Increment
        (.Enclosed ⟨⟨1,1⟩,⟨1,3⟩⟩ (name_ref "b" ⟨⟨1,2⟩,⟨1,2⟩⟩))
        ⟨⟨1,1⟩,⟨1,5⟩⟩) ⟨[tokAt .EOF 1 6 6], ⟨1,5⟩⟩ := ⟨rfl, rfl⟩

/-- C7 amended: a postfix `++`/`--` immediately following a bare identifier
is rewritten during parsing to `x += 1`/`x -= 1`; following any other
primary expression it parses as a postfix unary-operator node; prefix
`++`/`--` parse as unary-operator nodes. -/
theorem C7_postfix_prefix_behavior :
    (∀ (fuel : Nat) (tq : TokenQueue) (lvl : Nat) (id : String) (sp : Span)
        (t : Span) (rest : List Token),
      tq.tokens = Token.mk (.Operator .Increment) t :: rest →
      parse_primary_expression (fuel + 1) tq lvl ⟨.Identifier id, sp⟩ =
        pok (assignment .AddAssign (name_ref id sp) (.IntLiteral sp 1) sp)
          ⟨rest, t.stop⟩) ∧
    (∀ (fuel : Nat) (tq : TokenQueue) (lvl : Nat) (id : String) (sp : Span)
        (t : Span) (rest : List Token),
      tq.tokens = Token.mk (.Operator .Decrement) t :: rest →
      parse_primary_expression (fuel + 1) tq lvl ⟨.Identifier id, sp⟩ =
        pok (assignment .SubAssign (name_ref id sp) (.IntLiteral sp 1) sp)
          ⟨rest, t.stop⟩) ∧
    parse_expression 20 tq_ident_incr 0 =
      pok (assignment .AddAssign (name_ref "x" ⟨⟨1,1⟩,⟨1,1⟩⟩)
        (.IntLiteral ⟨⟨1,1⟩,⟨1,1⟩⟩ 1) ⟨⟨1,1⟩,⟨1,1⟩⟩)
        ⟨[tokAt .EOF 1 4 4], ⟨1,3⟩⟩ ∧
    parse_expression 20 tq_ident_decr 0 =
      pok (assignment .SubAssign (name_ref "x" ⟨⟨1,1⟩,⟨1,1⟩⟩)
        (.IntLiteral ⟨⟨1,1⟩,⟨1,1⟩⟩ 1) ⟨⟨1,1⟩,⟨1,1⟩⟩)
        ⟨[tokAt .EOF 1 4 4], ⟨1,3⟩⟩ ∧
    parse_expression 20 tq_pre_incr 0 =
      pok (unary_op .Increment (name_ref "x" ⟨⟨1,3⟩,⟨1,3⟩⟩) ⟨⟨1,1⟩,⟨1,3⟩⟩)
        ⟨[tokAt .EOF 1 4 4], ⟨1,3⟩⟩ ∧
    parse_expression 20 tq_pre_decr 0 =
      pok (unary_op .Decrement (name_ref "x" ⟨⟨1,3⟩,⟨1,3⟩⟩) ⟨⟨1,1⟩,⟨1,3⟩⟩)
        ⟨[tokAt .EOF 1 4 4], ⟨1,3⟩⟩ := by
  refine ⟨fun fuel tq lvl id sp t rest h => ?_,
          fun fuel tq lvl id sp t rest h => ?_, rfl, rfl, rfl, rfl⟩
  · simp [parse_primary_expression, TokenQueue.peek, TokenQueue.pop, h, ebind,
      pok, assignment, name_ref]
  · simp [parse_primary_expression, TokenQueue.peek, TokenQueue.pop, h, ebind,
      pok, assignment, name_ref]

/-- Witness for C7's identifier-postfix rewrites at a concrete queue. -/
theorem C7_postfix_prefix_behavior_witness :
    parse_primary_expression 2 ⟨[tokAt (.Operator .Increment) 1 2 3], Pos.zero⟩ 0
        ⟨.Identifier "y", Span.new ⟨1,1⟩ ⟨1,1⟩⟩ =
      pok (assignment .AddAssign (name_ref "y" (Span.new ⟨1,1⟩ ⟨1,1⟩))
        (.IntLiteral (Span.new ⟨1,1⟩ ⟨1,1⟩) 1) (Span.new ⟨1,1⟩ ⟨1,1⟩))
        ⟨[], ⟨1,3⟩⟩ :=
  C7_postfix_prefix_behavior.1 1 ⟨[tokAt (.Operator .Increment) 1 2 3], Pos.zero⟩
    0 "y" (Span.new ⟨1,1⟩ ⟨1,1⟩) ⟨⟨1,2⟩,⟨1,3⟩⟩ [] rfl

/-- C10: a single trailing comma before the closing `)` of a call argument
list or the closing `}` of an object-construction parameter list is
accepted and yields the same sequence of argument/parameter expressions as
the input without it: after any parsed argument, a comma followed by the
closing token and the closing token alone continue identically, and the
concrete inputs `(7, 8,)`/`(7, 8)` and `{7, 8,}`/`{7, 8}` produce equal
argument lists. -/
theorem C10_trailing_comma :
    (∀ (fuel lvl : Nat) (r : List Token) (acc : List Expression)
        (p : Pos) (sp sp2 : Span),
      parse_call_args_after (fuel + 1) ⟨⟨.Comma, sp⟩ :: ⟨.CloseParen, sp2⟩ :: r, p⟩
          lvl acc =
        parse_call_args fuel ⟨⟨.CloseParen, sp2⟩ :: r, sp.stop⟩ lvl acc ∧
      parse_call_args_after (fuel + 1) ⟨⟨.CloseParen, sp2⟩ :: r, p⟩ lvl acc =
        parse_call_args fuel ⟨⟨.CloseParen, sp2⟩ :: r, p⟩ lvl acc ∧
      parse_call_args (fuel + 1) ⟨⟨.CloseParen, sp2⟩ :: r, p⟩ lvl acc =
        pok acc ⟨⟨.CloseParen, sp2⟩ :: r, p⟩) ∧
    (∀ (fuel lvl : Nat) (r : List Token) (acc : List Expression)
        (p : Pos) (sp sp2 : Span),
      parse_obj_params_after (fuel + 1) ⟨⟨.Comma, sp⟩ :: ⟨.CloseCurly, sp2⟩ :: r, p⟩
          lvl acc =
        parse_obj_params fuel ⟨⟨.CloseCurly, sp2⟩ :: r, sp.stop⟩ lvl acc ∧
      parse_obj_params_after (fuel + 1) ⟨⟨.CloseCurly, sp2⟩ :: r, p⟩ lvl acc =
        parse_obj_params fuel ⟨⟨.CloseCurly, sp2⟩ :: r, p⟩ lvl acc ∧
      parse_obj_params (fuel + 1) ⟨⟨.CloseCurly, sp2⟩ :: r, p⟩ lvl acc =
        pok acc ⟨⟨.CloseCurly, sp2⟩ :: r, p⟩) ∧
    callArgsOf (parse_function_call 50 tq_args_trailing 0 "f" Pos.zero) =
      callArgsOf (parse_function_call 50 tq_args_plain 0 "f" Pos.zero) ∧
    callArgsOf (parse_function_call 50 tq_args_trailing 0 "f" Pos.zero) =
      some (.ok [.IntLiteral ⟨⟨1,2⟩,⟨1,2⟩⟩ 7, .IntLiteral ⟨⟨1,5⟩,⟨1,5⟩⟩ 8]) ∧
    objParamsOf (parse_object_construction 50 tq_params_trailing 0 "Foo" Pos.zero) =
      objParamsOf (parse_object_construction 50 tq_params_plain 0 "Foo" Pos.zero) ∧
    objParamsOf (parse_object_construction 50 tq_params_trailing 0 "Foo" Pos.zero) =
      some (.ok [.IntLiteral ⟨⟨1,2⟩,⟨1,2⟩⟩ 7, .IntLiteral ⟨⟨1,5⟩,⟨1,5⟩⟩ 8]) := by
  refine ⟨fun fuel lvl r acc p sp sp2 => ⟨?_, ?_, ?_⟩,
          fun fuel lvl r acc p sp sp2 => ⟨?_, ?_, ?_⟩, rfl, rfl, rfl, rfl⟩ <;>
    simp [parse_call_args_after, parse_call_args, parse_obj_params_after,
      parse_obj_params, TokenQueue.is_next, TokenQueue.peek, TokenQueue.pop,
      ebind, pok]

/-- C5: `self` is accepted only as the first argument of a signature,
where it receives the enclosing type with no type annotation; a `self` in
any later position fails with SelfNotAllowed. -/
theorem C5_self_argument :
    (∀ (fuel : Nat) (tq : TokenQueue) (self_type : Typ) (args : List Argument)
        (const_arg : Bool) (sp : Span) (rest : List Token),
      args ≠ [] →
      tq.tokens = Token.mk (.Identifier "self") sp :: rest →
      parse_func_args_name (fuel + 1) tq self_type args const_arg =
        perr sp.start .SelfNotAllowed) ∧
    (∀ (fuel : Nat) (tq : TokenQueue) (self_type : Typ)
        (const_arg : Bool) (sp : Span) (rest : List Token),
      tq.tokens = Token.mk (.Identifier "self") sp :: rest →
      parse_func_args_name (fuel + 1) tq self_type [] const_arg =
        parse_func_args_sep fuel ⟨rest, sp.stop⟩ self_type
          [Argument.new "self" self_type const_arg (Span.new sp.start sp.start)]) ∧
    parse_func 50 tq_func_self_late 0 false (Typ.Struct ⟨2,5⟩ "S") =
      perr ⟨1,11⟩ .SelfNotAllowed ∧
    parse_func 50 tq_func_self_first 0 false (Typ.Struct ⟨2,5⟩ "S") =
      pok (Function.new "f" Typ.Void
        [Argument.new "self" (Typ.Struct ⟨2,5⟩ "S") false (Span.new ⟨1,3⟩ ⟨1,3⟩)]
        false (Block.new [.Expression (name_ref "x" ⟨⟨1,10⟩,⟨1,10⟩⟩)])
        ⟨⟨1,1⟩,⟨1,10⟩⟩)
        ⟨[tokAt .EOF 1 11 11], ⟨1,10⟩⟩ := by
  refine ⟨fun fuel tq self_type args const_arg sp rest hne h => ?_,
          fun fuel tq self_type const_arg sp rest h => ?_, rfl, rfl⟩
  · cases args with
    | nil => exact absurd rfl hne
    | cons a as2 =>
      simp [parse_func_args_name, TokenQueue.expect_identifier, TokenQueue.pop,
        h, ebind, perr]
  · simp [parse_func_args_name, TokenQueue.expect_identifier, TokenQueue.pop,
      h, ebind, pok, Argument.new]

/-- Witness for C5 at a concrete later-position and first-position `self`. -/
theorem C5_self_argument_witness :
    parse_func_args_name 2 ⟨[tokAt (.Identifier "self") 1 5 8], Pos.zero⟩
        Typ.Int [Argument.new "a" Typ.Int false Span.zero] false =
      perr ⟨1,5⟩ .SelfNotAllowed ∧
    parse_func_args_name 2 ⟨[tokAt (.Identifier "self") 1 5 8], Pos.zero⟩
        Typ.Int [] false =
      parse_func_args_sep 1 ⟨[], ⟨1,8⟩⟩ Typ.Int
        [Argument.new "self" Typ.Int false (Span.new ⟨1,5⟩ ⟨1,5⟩)] :=
  ⟨C5_self_argument.1 1 ⟨[tokAt (.Identifier "self") 1 5 8], Pos.zero⟩ Typ.Int
     [Argument.new "a" Typ.Int false Span.zero] false ⟨⟨1,5⟩,⟨1,8⟩⟩ []
     (List.cons_ne_nil _ _) rfl,
   C5_self_argument.2.1 1 ⟨[tokAt (.Identifier "self") 1 5 8], Pos.zero⟩ Typ.Int
     false ⟨⟨1,5⟩,⟨1,8⟩⟩ [] rfl⟩

end Nomad

namespace Nomad

/-- C2 counterexample: gen_function succeeds on a function declared to
return int whose body contains no return statement; the emitted function's
entry block stays empty (no terminator), so emission does not fail. -/
theorem C2_nonvoid_without_return_succeeds :
    isOkGR (gen_function 2 ctx_empty fn_int_noret) = true ∧
    moduleOfGR (gen_function 2 ctx_empty fn_int_noret) =
      some ⟨[⟨"f", .FuncT .I64 [], [⟨0, "entry", []⟩]⟩]⟩ := ⟨rfl, rfl⟩

/-- C2 amended: when the redefinition check passes, the signature resolves
and the body statements emit successfully, gen_function succeeds
regardless of the return type; on fallthrough it appends `ret void` at the
builder's block exactly when the declared return type is Void, and emits
nothing (leaving the block unterminated, for LLVM's module verifier to
reject later) when it is not. -/
theorem C2_ret_void_on_fallthrough (fuel : Nat) (ctx : Context) (f : Function)
    (fi : FunctionInstance) (ctxSig ctxBody : Context)
    (hnf : ctx.has_function f.sig.name = false)
    (hsig : gen_function_sig ctx f.sig f.public f.span = gok fi ctxSig)
    (hbody : gen_statements fuel (gen_function_entry ctxSig fi f)
      f.block.statements = gok () ctxBody) :
    gen_function (fuel + 1) ctx f = gok fi (gen_function_exit ctxBody f) ∧
    (f.sig.return_type = Typ.Void → builder_ok ctxBody = true →
      instrsIn (gen_function_exit ctxBody f).module ctxBody.builder =
        instrsIn ctxBody.module ctxBody.builder ++ [.RetVoid]) ∧
    (f.sig.return_type ≠ Typ.Void →
      (gen_function_exit ctxBody f).module = ctxBody.module) := by
  refine ⟨?_, fun hv hok => ?_, fun hnv => ?_⟩
  · simp [gen_function, hnf, hsig, gbind, gok, hbody]
  · rw [module_exit_void ctxBody f hv]
    exact instrsIn_emit ctxBody .RetVoid hok
  · unfold gen_function_exit
    have hbeq : (f.sig.return_type == Typ.Void) = false := by
      simp [hnv]
    rw [hbeq]
    simp only [Bool.false_eq_true, if_false]
    cases h : ctxBody.pop_stack_frame.frames.head? <;>
      simp [h, Context.pop_stack_frame, Context.positionAtEnd]

/-- Witness for C2 on a concrete Void function with an empty body: the
emission succeeds and a `ret void` lands in its entry block. -/
theorem C2_ret_void_on_fallthrough_witness :
    gen_function 2 ctx_empty fn_void_empty =
      gok fi_void (gen_function_exit ctxBody_void fn_void_empty) ∧
    instrsIn (gen_function_exit ctxBody_void fn_void_empty).module
        ctxBody_void.builder =
      instrsIn ctxBody_void.module ctxBody_void.builder ++ [.RetVoid] :=
  ⟨(C2_ret_void_on_fallthrough 1 ctx_empty fn_void_empty fi_void ctxSig_void
      ctxBody_void rfl rfl rfl).1,
   (C2_ret_void_on_fallthrough 1 ctx_empty fn_void_empty fi_void ctxSig_void
      ctxBody_void rfl rfl rfl).2.1 rfl rfl⟩

/-- C6: generating a variable, function or struct whose name is already
registered in scope fails with the respective redefinition error, and the
returned context is the untouched input context: the variable map,
function table and complex-type table are unchanged. -/
theorem C6_redefinition_checks (fuel : Nat) (ctx : Context) :
    (∀ v : Variable, ctx.has_variable v.name = true →
      gen_variable fuel ctx v =
        gerr v.span.start (.RedefinitionOfVariable v.name) ctx) ∧
    (∀ f : Function, ctx.has_function f.sig.name = true →
      gen_function (fuel + 1) ctx f =
        gerr f.span.start (.RedefinitionOfFunction f.sig.name) ctx) ∧
    (∀ s : Struct, (ctx.get_complex_type s.name).isSome = true →
      gen_struct (fuel + 1) ctx s =
        gerr s.span.start (.RedefinitionOfStruct s.name) ctx) := by
  refine ⟨fun v h => ?_, fun f h => ?_, fun s h => ?_⟩
  · simp [gen_variable, h]
  · simp [gen_function, h]
  · simp [gen_struct, h]

/-- Witness for C6 on a context that already binds x0, f0 and S0. -/
theorem C6_redefinition_checks_witness :
    gen_variable 1 ctx_demo var_demo =
      gerr Pos.zero (.RedefinitionOfVariable "x0") ctx_demo ∧
    gen_function 1 ctx_demo fn_demo =
      gerr Pos.zero (.RedefinitionOfFunction "f0") ctx_demo ∧
    gen_struct 1 ctx_demo struct_demo =
      gerr Pos.zero (.RedefinitionOfStruct "S0") ctx_demo :=
  ⟨(C6_redefinition_checks 1 ctx_demo).1 var_demo rfl,
   (C6_redefinition_checks 0 ctx_demo).2.1 fn_demo rfl,
   (C6_redefinition_checks 0 ctx_demo).2.2 struct_demo rfl⟩

/-- C4: add_builtin_functions appends exactly four builtin signatures, in
order arc_alloc, arc_inc_ref, arc_dec_ref, concat with the argument names
of the runtime ABI, and their C-level lowering is exactly the runtime ABI
of the spec: `void* arc_alloc(size_t)` (the compiler's 64-bit Int word for
size_t), `void arc_inc_ref(void*)`, `void arc_dec_ref(void*)`, and concat
over two slice pointers and an element length whose slice result travels
through an additional pointer argument. -/
theorem C4_builtin_table (ctx : Builtin.BContext) :
    (Builtin.add_builtin_functions ctx).builtins.take ctx.builtins.length =
      ctx.builtins ∧
    ((Builtin.add_builtin_functions ctx).builtins.drop ctx.builtins.length).length
      = 4 ∧
    ((Builtin.add_builtin_functions ctx).builtins.drop ctx.builtins.length).map
      Builtin.abi_of = Builtin.runtime_abi ∧
    ((Builtin.add_builtin_functions ctx).builtins.drop ctx.builtins.length).map
      (fun s => (s.name, s.args.map (·.name))) =
      [("arc_alloc", ["size"]), ("arc_inc_ref", ["ptr"]),
       ("arc_dec_ref", ["ptr"]), ("concat", ["a", "b", "element_len"])] := by
  have hb : (Builtin.add_builtin_functions ctx).builtins =
      ctx.builtins ++ [
        Builtin.sig "arc_alloc" .VoidPtr [Builtin.BArgument.new "size" .Int],
        Builtin.sig "arc_inc_ref" .Void [Builtin.BArgument.new "ptr" .VoidPtr],
        Builtin.sig "arc_dec_ref" .Void [Builtin.BArgument.new "ptr" .VoidPtr],
        Builtin.sig "concat" Builtin.string_type [
          Builtin.BArgument.with_passing_mode "a" Builtin.string_type .ByPtr,
          Builtin.BArgument.with_passing_mode "b" Builtin.string_type .ByPtr,
          Builtin.BArgument.with_passing_mode "element_len" .Int .ByValue]] := by
    simp [Builtin.add_builtin_functions, Builtin.BContext.add_builtin]
  rw [hb]
  refine ⟨?_, ?_, ?_, ?_⟩
  · rw [List.take_left]
  · rw [List.drop_left]
    rfl
  · rw [List.drop_left]
    rfl
  · rw [List.drop_left]
    rfl

/-- C8 counterexample: on a one-line file with the span on line 1, the
printer emits zero trailing context lines, not three. -/
theorem C8_short_file_trailing :
    ((sourceIndices (print_message_body ⟨⟨1,1⟩,⟨1,3⟩⟩ ["var x"])).filter
      (fun i => decide (1 < i))).length = 0 := by decide

/-- C8 amended: when the file has at least `span.end.line + 3` lines, the
printed source lines are exactly the consecutive lines from
`max(span.start.line - 3, 1)` through `span.end.line + 3`: exactly three
leading context lines (fewer only when the span starts within the first
three lines) and exactly three trailing context lines; when the file is
shorter, the trailing context is cut at the last line. Each source line of
the span is immediately followed by its caret line: on the span's first
line the carets start at the span's start column and run to the span's end
column (or the end of the line for a multi-line span); on the span's last
line they run from column one to the span's end column; on each non-empty
line strictly inside the span they cover the whole line. -/
theorem C8_context_lines (span : Span) (lines : List String)
    (h1 : 1 ≤ span.start.line) (h2 : span.start.line ≤ span.stop.line)
    (h3 : span.stop.line + 3 ≤ lines.length) :
    sourceIndices (print_message_body span lines) =
      List.range' (if span.start.line ≥ 4 then span.start.line - 3 else 1)
        (span.stop.line + 3 + 1 -
          (if span.start.line ≥ 4 then span.start.line - 3 else 1)) ∧
    ((sourceIndices (print_message_body span lines)).filter
      (fun i => decide (i < span.start.line))).length =
      min 3 (span.start.line - 1) ∧
    ((sourceIndices (print_message_body span lines)).filter
      (fun i => decide (span.stop.line < i))).length = 3 ∧
    (∀ text, lines[span.start.line - 1]? = some text →
      afterSource span.start.line (print_message_body span lines) =
        some (.Carets (span.start.offset - 1)
          ((if span.start.line = span.stop.line then span.stop.offset
            else text.length) - span.start.offset + 1))) ∧
    (span.start.line ≠ span.stop.line →
      ∀ text, lines[span.stop.line - 1]? = some text →
      afterSource span.stop.line (print_message_body span lines) =
        some (.Carets 0 span.stop.offset)) ∧
    (∀ ℓ text, span.start.line < ℓ → ℓ < span.stop.line →
      lines[ℓ - 1]? = some text → text.isEmpty = false →
      afterSource ℓ (print_message_body span lines) =
        some (.Carets 0 text.length)) := by
  have hidx : sourceIndices (print_message_body span lines) =
      List.range' ((if span.start.line ≥ 4 then span.start.line - 4 else 0) + 1)
        (span.stop.line + 3 -
          (if span.start.line ≥ 4 then span.start.line - 4 else 0)) := by
    unfold print_message_body
    rw [print_loop_indices span _ _ (by split <;> omega)]
    congr 1
    rw [List.length_drop]
    split <;> omega
  refine ⟨?_, ?_, ?_, ?_, ?_, ?_⟩
  · rw [hidx]
    congr 1 <;> split <;> omega
  · rw [hidx, length_filter_lt_range']
    split <;> omega
  · rw [hidx, length_filter_gt_range']
    split <;> omega
  · intro text htext
    refine afterSource_print_message span lines h1 h2 span.start.line text
      le_rfl h2 htext _ _ ?_
    by_cases hss : span.start.line = span.stop.line
    · simp [caretsFor, hss]
    · simp [caretsFor, hss]
  · intro hne text htext
    refine afterSource_print_message span lines h1 h2 span.stop.line text
      h2 le_rfl htext _ _ ?_
    have h' : (span.stop.line == span.start.line) = false := by
      simp [Ne.symm hne]
    simp [caretsFor, h']
  · intro ℓ text hgt hlt htext hemp
    refine afterSource_print_message span lines h1 h2 ℓ text
      (by omega) (by omega) htext _ _ ?_
    have ha : (ℓ == span.start.line) = false := by
      simp
      omega
    have hb : (ℓ == span.stop.line) = false := by
      simp
      omega
    simp [caretsFor, ha, hb, hgt, hlt, hemp]

/-- Witness for C8: the line range and context counts on a span at line 5
of an eight-line file, its caret line under line 5, and the caret lines
under the last and a middle line of a multi-line span 5..7 of a ten-line
file. -/
theorem C8_context_lines_witness :
    (sourceIndices (print_message_body ⟨⟨5,1⟩,⟨5,2⟩⟩
        ["a", "b", "c", "d", "e", "f", "g", "h"]) = List.range' 2 7 ∧
     ((sourceIndices (print_message_body ⟨⟨5,1⟩,⟨5,2⟩⟩
        ["a", "b", "c", "d", "e", "f", "g", "h"])).filter
       (fun i => decide (i < 5))).length = 3 ∧
     ((sourceIndices (print_message_body ⟨⟨5,1⟩,⟨5,2⟩⟩
        ["a", "b", "c", "d", "e", "f", "g", "h"])).filter
       (fun i => decide (5 < i))).length = 3) ∧
    afterSource 5 (print_message_body ⟨⟨5,1⟩,⟨5,2⟩⟩
        ["a", "b", "c", "d", "e", "f", "g", "h"]) = some (.Carets 0 2) ∧
    afterSource 7 (print_message_body ⟨⟨5,1⟩,⟨7,2⟩⟩
        ["a", "b", "c", "d", "e", "f", "g", "h", "i", "j"]) =
      some (.Carets 0 2) ∧
    afterSource 6 (print_message_body ⟨⟨5,1⟩,⟨7,2⟩⟩
        ["a", "b", "c", "d", "e", "f", "g", "h", "i", "j"]) =
      some (.Carets 0 1) := by
  refine ⟨?_, ?_, ?_, ?_⟩
  · have h := C8_context_lines ⟨⟨5,1⟩,⟨5,2⟩⟩
      ["a", "b", "c", "d", "e", "f", "g", "h"] (by decide) (by decide)
      (by decide)
    exact ⟨by simpa using h.1, by simpa using h.2.1, by simpa using h.2.2.1⟩
  · simpa using (C8_context_lines ⟨⟨5,1⟩,⟨5,2⟩⟩
      ["a", "b", "c", "d", "e", "f", "g", "h"] (by decide) (by decide)
      (by decide)).2.2.2.1 "e" (by decide)
  · simpa using (C8_context_lines ⟨⟨5,1⟩,⟨7,2⟩⟩
      ["a", "b", "c", "d", "e", "f", "g", "h", "i", "j"] (by decide)
      (by decide) (by decide)).2.2.2.2.1 (by decide) "g" (by decide)
  · simpa using (C8_context_lines ⟨⟨5,1⟩,⟨7,2⟩⟩
      ["a", "b", "c", "d", "e", "f", "g", "h", "i", "j"] (by decide)
      (by decide) (by decide)).2.2.2.2.2 6 "f" (by decide) (by decide)
      (by decide) (by decide)

end Nomad
